import Mathlib

/-!
Shallow embedding of the onyx_image decoder core (types.hpp, surface.cpp,
byte_io.hpp, decode_helpers.hpp, c64_common.hpp, codecs/koala.cpp,
codecs/drazlace.cpp, codecs/qoi.cpp, codecs/ico.cpp, codecs/png.cpp,
codec.cpp), together with proofs about the claims of the specification.

Conventions of the embedding:
* byte buffers are `List Nat` (each entry is a byte value; C++ spans of
  `uint8_t`);
* C++ `int` variables are `Int`, `size_t` variables are `Nat`;
* unchecked pointer reads (which the source only performs in bounds)
  are `byteAt`, which defaults to 0 out of range; a separate "checked"
  instrumentation (`byteAtC` and the `...C` functions) returns `none`
  instead, and is used to prove the absence of out-of-bounds reads;
* `std::vector` allocation is modelled as always succeeding (the source
  only allocates after its 1 GiB sanity check);
* the free-text diagnostic `message` of `decode_result` is elided: only
  the `ok` flag and the error kind are modelled.
-/

set_option maxRecDepth 4000

namespace OnyxImage

/-- Read a byte at index `i` (C++ `p[i]`; in-bounds wherever the source reads). -/
def byteAt (l : List Nat) (i : Nat) : Nat := l.getD i 0

/-- Checked read: `none` models an out-of-bounds access. -/
def byteAtC (l : List Nat) (i : Nat) : Option Nat := l[i]?

-- ===========================================================================
-- types.hpp
-- ===========================================================================

inductive pixel_format
  | indexed8
  | rgb888
  | rgba8888
deriving DecidableEq, Repr

def bytes_per_pixel : pixel_format → Nat
  | .indexed8 => 1
  | .rgb888 => 3
  | .rgba8888 => 4

inductive decode_error
  | none
  | invalid_format
  | unsupported_version
  | unsupported_encoding
  | unsupported_bit_depth
  | dimensions_exceeded
  | truncated_data
  | io_error
  | internal_error
deriving DecidableEq, Repr

structure decode_result where
  ok : Bool
  error : decode_error
deriving DecidableEq, Repr

def decode_result.success : decode_result := ⟨true, .none⟩

def decode_result.failure (e : decode_error) : decode_result := ⟨false, e⟩

structure image_rect where
  x : Int := 0
  y : Int := 0
  w : Int := 0
  h : Int := 0
deriving DecidableEq, Repr

inductive subrect_kind
  | sprite
  | tile
  | frame
deriving DecidableEq, Repr

structure subrect where
  rect : image_rect := {}
  kind : subrect_kind := .sprite
  user_tag : Nat := 0
deriving DecidableEq, Repr

/-- A default-constructed `subrect` (what `std::vector<subrect>::resize` fills with). -/
def default_subrect : subrect := { rect := ⟨0, 0, 0, 0⟩ }

structure decode_options where
  max_width : Int := 16384
  max_height : Int := 16384
  enable_packing : Bool := false
  padding : Int := 0
  pack_max_width : Int := 4096
  pack_max_height : Int := 4096
  power_of_two : Bool := false
deriving DecidableEq, Repr

/-- `static_cast<int>` of an (unsigned 32-bit) value: two's-complement wrap. -/
def toInt32 (n : Nat) : Int :=
  if n % 2 ^ 32 < 2 ^ 31 then ((n % 2 ^ 32 : Nat) : Int)
  else ((n % 2 ^ 32 : Nat) : Int) - 2 ^ 32

-- ===========================================================================
-- byte_io.hpp
-- ===========================================================================

def read_le16 (data : List Nat) (off : Nat) : Nat :=
  byteAt data off ||| (byteAt data (off + 1) <<< 8)

def read_le32 (data : List Nat) (off : Nat) : Nat :=
  byteAt data off ||| (byteAt data (off + 1) <<< 8) |||
    (byteAt data (off + 2) <<< 16) ||| (byteAt data (off + 3) <<< 24)

def read_be32 (data : List Nat) (off : Nat) : Nat :=
  (byteAt data off <<< 24) ||| (byteAt data (off + 1) <<< 16) |||
    (byteAt data (off + 2) <<< 8) ||| byteAt data (off + 3)

-- ===========================================================================
-- surface.cpp : memory_surface
-- ===========================================================================

structure memory_surface where
  pixels : List Nat := []
  palette : List Nat := []
  subrects : List subrect := []
  width : Int := 0
  height : Int := 0
  pitch : Nat := 0
  format : pixel_format := .rgba8888
deriving DecidableEq, Repr

/-- `memcpy(dst + off, src, n)`: overwrite `n` bytes of `dst` starting at
`off` with the bytes of `src` (a too-short `src` pads with 0; the source's
callers always supply at least `n` bytes). -/
def listWrite (dst : List Nat) (off : Nat) (src : List Nat) (n : Nat) : List Nat :=
  dst.take off ++ ((List.range n).map (byteAt src) ++ dst.drop (off + n))

def MAX_BUFFER_SIZE : Nat := 1024 * 1024 * 1024

def SIZE_MAX : Nat := 2 ^ 64 - 1

def memory_surface.set_size (s : memory_surface) (width height : Int)
    (format : pixel_format) : Bool × memory_surface :=
  if width ≤ 0 ∨ height ≤ 0 then (false, s)
  else
    let w := width.toNat
    let h := height.toNat
    let bpp := bytes_per_pixel format
    if w > SIZE_MAX / bpp then (false, s)
    else
      let pitch := w * bpp
      if pitch > SIZE_MAX / h then (false, s)
      else
        let total := pitch * h
        if total > MAX_BUFFER_SIZE then (false, s)
        else
          (true, { pixels := List.replicate total 0, palette := [], subrects := [],
                   width := width, height := height, pitch := pitch, format := format })

def memory_surface.write_pixels (s : memory_surface) (x y count : Int)
    (px : List Nat) : memory_surface :=
  if y < 0 ∨ y ≥ s.height ∨ x < 0 ∨ count ≤ 0 then s
  else
    let xOff := x.toNat
    if xOff ≥ s.pitch then s
    else
      let off := y.toNat * s.pitch + xOff
      let maxBytes := s.pitch - xOff
      let n := min count.toNat maxBytes
      if off + n ≤ s.pixels.length then { s with pixels := listWrite s.pixels off px n }
      else s

def memory_surface.write_pixel (s : memory_surface) (x y : Int) (v : Nat) :
    memory_surface :=
  if x < 0 ∨ x ≥ s.width ∨ y < 0 ∨ y ≥ s.height then s
  else if s.format ≠ .indexed8 then s
  else
    let off := y.toNat * s.pitch + x.toNat
    if off < s.pixels.length then { s with pixels := s.pixels.set off v } else s

def memory_surface.set_palette_size (s : memory_surface) (count : Int) :
    memory_surface :=
  if count ≤ 0 ∨ count > 256 then s
  else { s with palette := List.replicate (count.toNat * 3) 0 }

def memory_surface.write_palette (s : memory_surface) (start : Int)
    (colors : List Nat) : memory_surface :=
  if start < 0 ∨ colors = [] then s
  else
    let startOff := start.toNat * 3
    if startOff ≥ s.palette.length then s
    else
      let n := min colors.length (s.palette.length - startOff)
      { s with palette := listWrite s.palette startOff colors n }

def memory_surface.set_subrect (s : memory_surface) (index : Int) (sr : subrect) :
    memory_surface :=
  if index < 0 then s
  else
    let i := index.toNat
    let grown :=
      if s.subrects.length ≤ i then
        s.subrects ++ List.replicate (i + 1 - s.subrects.length) default_subrect
      else s.subrects
    { s with subrects := grown.set i sr }

/-- One call through the `surface` SPI (the mutating interface decoders use). -/
inductive surface_op
  | setSize (w h : Int) (fmt : pixel_format)
  | writePixels (x y count : Int) (px : List Nat)
  | writePixel (x y : Int) (v : Nat)
  | setPaletteSize (n : Int)
  | writePalette (start : Int) (colors : List Nat)
  | setSubrect (i : Int) (sr : subrect)

def apply_op (s : memory_surface) : surface_op → memory_surface
  | .setSize w h fmt => (s.set_size w h fmt).2
  | .writePixels x y c px => s.write_pixels x y c px
  | .writePixel x y v => s.write_pixel x y v
  | .setPaletteSize n => s.set_palette_size n
  | .writePalette st cs => s.write_palette st cs
  | .setSubrect i sr => s.set_subrect i sr

/-- The structural invariant claimed for `memory_surface` (spec §3). -/
def surface_invariant (s : memory_surface) : Prop :=
  s.pixels.length = s.width.toNat * s.height.toNat * bytes_per_pixel s.format ∧
    s.palette.length % 3 = 0 ∧ s.palette.length ≤ 768

instance (s : memory_surface) : Decidable (surface_invariant s) := by
  unfold surface_invariant; infer_instance

-- ===========================================================================
-- decode_helpers.hpp
-- ===========================================================================

def DEFAULT_MAX_DIMENSION : Int := 16384

def get_dimension_limits (options : decode_options) (default_limit : Int) :
    Int × Int :=
  (if options.max_width > 0 then options.max_width else default_limit,
   if options.max_height > 0 then options.max_height else default_limit)

def validate_dimensions (width height : Int) (options : decode_options)
    (default_limit : Int) : decode_result :=
  let mw := (get_dimension_limits options default_limit).1
  let mh := (get_dimension_limits options default_limit).2
  if width > mw ∨ height > mh then .failure .dimensions_exceeded
  else .success

def write_rows (s : memory_surface) (data : List Nat) (row_bytes : Nat)
    (height : Int) : memory_surface :=
  (List.range height.toNat).foldl
    (fun s y =>
      s.write_pixels 0 (Int.ofNat y) (Int.ofNat row_bytes) (data.drop (y * row_bytes))) s

-- ===========================================================================
-- c64_common.hpp
-- ===========================================================================

namespace c64

/-- C64 palette (VICE default). -/
def PALETTE : List Nat :=
  [0x000000, 0xffffff, 0x68372b, 0x70a4b2, 0x6f3d86, 0x588d43, 0x352879, 0xb8c76f,
   0x6f4f25, 0x433900, 0x9a6759, 0x444444, 0x6c6c6c, 0x9ad284, 0x6c5eb5, 0x959595]

def MULTICOLOR_WIDTH : Nat := 320

def MULTICOLOR_HEIGHT : Nat := 200

def BITMAP_SIZE : Nat := 8000

def SCREEN_RAM_SIZE : Nat := 1000

def COLOR_RAM_SIZE : Nat := 1000

def RGB_BLEND_MASK : Nat := 0x7f7f7f

/-- `(rgb1 & rgb2) + ((rgb1 ^ rgb2) >> 1 & RGB_BLEND_MASK)` on `uint32`. -/
def blend_rgb (rgb1 rgb2 : Nat) : Nat :=
  ((rgb1 &&& rgb2) + ((rgb1 ^^^ rgb2) >>> 1 &&& RGB_BLEND_MASK)) % 2 ^ 32

/-- `write_rgb_pixel`: write one RGB pixel; `x` is converted to a byte offset. -/
def write_rgb_pixel (s : memory_surface) (x y : Nat) (rgb : Nat) : memory_surface :=
  s.write_pixels (Int.ofNat (x * 3)) (Int.ofNat y) 3
    [(rgb >>> 16) &&& 0xff, (rgb >>> 8) &&& 0xff, rgb &&& 0xff]

/-- The colour index `decode_multicolor` selects for pixel `(x, y)`.  The three
RAM regions are passed as base offsets into the file buffer `src` (the source
passes the pointers `source_data + offset`). -/
def multicolor_color_index (src : List Nat) (bOff sOff cOff bg x y : Nat) : Nat :=
  let charOff := y / 8 * 40 + x / 8
  let bitmapByte := byteAt src (bOff + (charOff * 8 + y % 8))
  let sel := bitmapByte >>> (6 - x % 8 / 2 * 2) &&& 0x03
  if sel = 0 then bg &&& 0x0f
  else if sel = 1 then byteAt src (sOff + charOff) >>> 4 &&& 0x0f
  else if sel = 2 then byteAt src (sOff + charOff) &&& 0x0f
  else byteAt src (cOff + charOff) &&& 0x0f

/-- `c64::decode_multicolor`: write all 320x200 pixels into the surface. -/
def decode_multicolor (src : List Nat) (bOff sOff cOff bg : Nat)
    (s : memory_surface) : memory_surface :=
  (List.range MULTICOLOR_HEIGHT).foldl
    (fun s y =>
      (List.range MULTICOLOR_WIDTH).foldl
        (fun s x =>
          write_rgb_pixel s x y
            (PALETTE.getD (multicolor_color_index src bOff sOff cOff bg x y) 0)) s) s

end c64

-- ===========================================================================
-- codecs/koala.cpp
-- ===========================================================================

def KOALA_SIZE_WITH_ADDR : Nat := 10003

def KOALA_SIZE_WITHOUT_ADDR : Nat := 10001

def KOALA_SIZE_OCP : Nat := 10018

def GG_RLE_ESCAPE : Nat := 0xfe

def MAX_COMPRESSION_RATIO : Nat := 1000

/-- The `while` loop of `decompress_gg`, with the not-yet-consumed part of the
input and the output accumulated so far.  An RLE escape is followed by the
run value and then the run count. -/
def ggLoop (outputSize : Nat) : List Nat → List Nat → Option (List Nat)
  | [], acc => if acc.length = outputSize then some acc else none
  | b :: rest, acc =>
    if acc.length < outputSize then
      if b = GG_RLE_ESCAPE then
        match rest with
        | value :: count :: rest2 =>
          ggLoop outputSize rest2
            (acc ++ List.replicate (min count (outputSize - acc.length)) value)
        | _ => none
      else ggLoop outputSize rest (acc ++ [b])
    else if acc.length = outputSize then some acc else none

/-- `decompress_gg`: `none` models a `false` return. -/
def decompress_gg (data : List Nat) (offset outputSize : Nat) : Option (List Nat) :=
  if outputSize > data.length * MAX_COMPRESSION_RATIO then none
  else ggLoop outputSize (data.drop offset) []

def is_uncompressed_koala (data : List Nat) : Bool :=
  data.length == KOALA_SIZE_WITHOUT_ADDR || data.length == KOALA_SIZE_WITH_ADDR ||
    data.length == 10006 || data.length == KOALA_SIZE_OCP

def is_gg_koala (data : List Nat) : Bool :=
  if data.length < 100 || KOALA_SIZE_WITHOUT_ADDR ≤ data.length then false
  else if data.length < 2 then false
  else
    let load_addr := byteAt data 0 ||| (byteAt data 1 <<< 8)
    if load_addr != 0x6000 && load_addr != 0x4000 && load_addr != 0x2000 &&
        load_addr != 0x5c00 then false
    else (data.drop 2).any (· == GG_RLE_ESCAPE)

/-- The tail of `koala_decoder::decode` after the source/offset selection:
the availability check, the dimension-limit check, the surface allocation and
the pixel decode.  `src.length` is `available_size`, `bgOff` is
`background_offset` (so `required_size = bgOff + 1`). -/
def koala_finish (src : List Nat) (bOff sOff cOff bgOff : Nat)
    (options : decode_options) (surf : memory_surface) :
    decode_result × memory_surface :=
  if src.length < bgOff + 1 then (.failure .truncated_data, surf)
  else
    let maxW := if options.max_width > 0 then options.max_width else 16384
    let maxH := if options.max_height > 0 then options.max_height else 16384
    if (320 : Int) > maxW ∨ (200 : Int) > maxH then (.failure .dimensions_exceeded, surf)
    else
      match surf.set_size 320 200 .rgb888 with
      | (false, s) => (.failure .internal_error, s)
      | (true, s) =>
        (.success, c64.decode_multicolor src bOff sOff cOff (byteAt src bgOff) s)

/-- `koala_decoder::decode`. -/
def koala_decode (data : List Nat) (options : decode_options)
    (surf : memory_surface) : decode_result × memory_surface :=
  if data = [] then (.failure .truncated_data, surf)
  else if is_gg_koala data then
    match decompress_gg data 2 KOALA_SIZE_WITHOUT_ADDR with
    | none => (.failure .truncated_data, surf)
    | some dec => koala_finish dec 0 8000 9000 10000 options surf
  else if data.length = KOALA_SIZE_WITHOUT_ADDR then
    koala_finish data 0 8000 9000 10000 options surf
  else if data.length = KOALA_SIZE_WITH_ADDR ∨ data.length = 10006 then
    koala_finish data 2 (2 + 8000) (2 + 9000) (2 + 10000) options surf
  else if data.length = KOALA_SIZE_OCP then
    koala_finish data 2 (2 + 8000) (2 + 8000 + 8 + 1000) (2 + 8000 + 8 + 1000 - 1)
      options surf
  else (.failure .invalid_format, surf)

-- ===========================================================================
-- codecs/drazlace.cpp
-- ===========================================================================

def DRAZLACE_UNPACKED_SIZE : Nat := 18242

/-- "DRAZLACE! 1.0" as bytes. -/
def DRAZLACE_SIGNATURE : List Nat :=
  [0x44, 0x52, 0x41, 0x5a, 0x4c, 0x41, 0x43, 0x45, 0x21, 0x20, 0x31, 0x2e, 0x30]

/-- The `while` loop of `decompress_drp`.  An RLE escape is followed by the
run count and then the run value.  `acc` is the output written so far
(already containing the two copied load-address bytes). -/
def drpLoop (escape outputSize : Nat) : List Nat → List Nat → Option (List Nat)
  | [], acc => if acc.length = outputSize then some acc else none
  | b :: rest, acc =>
    if acc.length < outputSize then
      if b = escape then
        match rest with
        | count :: value :: rest2 =>
          drpLoop escape outputSize rest2
            (acc ++ List.replicate (min count (outputSize - acc.length)) value)
        | _ => none
      else drpLoop escape outputSize rest (acc ++ [b])
    else if acc.length = outputSize then some acc else none

/-- `decompress_drp`: the output buffer is written strictly sequentially, so
the zero-filled `resize` plus in-place writes is modelled by accumulation;
success requires the whole buffer to have been written. -/
def decompress_drp (data : List Nat) (outputSize : Nat) : Option (List Nat) :=
  if data.length < 17 then none
  else if outputSize > data.length * MAX_COMPRESSION_RATIO then none
  else drpLoop (byteAt data 15) outputSize (data.drop 16) [byteAt data 0, byteAt data 1]

def has_drazlace_signature (data : List Nat) : Bool :=
  if data.length < 2 + 13 then false
  else (data.drop 2).take 13 == DRAZLACE_SIGNATURE

/-- `get_c64_multicolor` (DrazLace variant, with `left_skip`). -/
def get_c64_multicolor (content : List Nat) (bOff vOff cOff bg : Nat)
    (x y : Nat) (leftSkip : Int) : Nat :=
  if (x : Int) + leftSkip < 0 then bg
  else
    let x := ((x : Int) + leftSkip).toNat
    let charOff := y / 8 * 40 + x / 8
    let sel := byteAt content (bOff + charOff * 8 + y % 8) >>> (6 - x % 8 / 2 * 2) &&& 0x03
    if sel = 0 then bg
    else if sel = 1 then byteAt content (vOff + charOff) >>> 4 &&& 0x0f
    else if sel = 2 then byteAt content (vOff + charOff) &&& 0x0f
    else byteAt content (cOff + charOff) &&& 0x0f

/-- `decode_c64_multicolor_frame`: one frame as a row-major list of RGB words. -/
def decode_c64_multicolor_frame (content : List Nat) (bOff vOff cOff bg : Nat)
    (leftSkip : Int) : List Nat :=
  (List.range c64.MULTICOLOR_HEIGHT).flatMap fun y =>
    (List.range c64.MULTICOLOR_WIDTH).map fun x =>
      c64.PALETTE.getD (get_c64_multicolor content bOff vOff cOff bg x y leftSkip &&& 0x0f) 0

/-- `apply_blend`: blend two frames pixel by pixel into the surface. -/
def apply_blend (frame1 frame2 : List Nat) (s : memory_surface) : memory_surface :=
  (List.range c64.MULTICOLOR_HEIGHT).foldl
    (fun s y =>
      (List.range c64.MULTICOLOR_WIDTH).foldl
        (fun s x =>
          c64.write_rgb_pixel s x y
            (c64.blend_rgb (frame1.getD (y * c64.MULTICOLOR_WIDTH + x) 0)
              (frame2.getD (y * c64.MULTICOLOR_WIDTH + x) 0))) s) s

/-- The tail of `drazlace_decoder::decode` once the unpacked 18242-byte image
`src` is in hand. -/
def drazlace_finish (src : List Nat) (options : decode_options)
    (surf : memory_surface) : decode_result × memory_surface :=
  let shift := byteAt src 0x2744
  if shift > 1 then (.failure .invalid_format, surf)
  else
    let maxW := if options.max_width > 0 then options.max_width else 16384
    let maxH := if options.max_height > 0 then options.max_height else 16384
    if (320 : Int) > maxW ∨ (200 : Int) > maxH then (.failure .dimensions_exceeded, surf)
    else
      match surf.set_size 320 200 .rgb888 with
      | (false, s) => (.failure .internal_error, s)
      | (true, s) =>
        let background := byteAt src 0x2742
        let frame1 := decode_c64_multicolor_frame src 0x802 0x402 2 background 0
        let frame2 := decode_c64_multicolor_frame src 0x2802 0x402 2 background (-(shift : Int))
        (.success, apply_blend frame1 frame2 s)

/-- `drazlace_decoder::decode`. -/
def drazlace_decode (data : List Nat) (options : decode_options)
    (surf : memory_surface) : decode_result × memory_surface :=
  if data = [] then (.failure .truncated_data, surf)
  else if has_drazlace_signature data then
    match decompress_drp data DRAZLACE_UNPACKED_SIZE with
    | none => (.failure .truncated_data, surf)
    | some dec => drazlace_finish dec options surf
  else if data.length = DRAZLACE_UNPACKED_SIZE then drazlace_finish data options surf
  else (.failure .invalid_format, surf)

-- ===========================================================================
-- codecs/qoi.cpp
-- ===========================================================================

def QOI_MAGIC : Nat := 0x716F6966

def QOI_HEADER_SIZE : Nat := 14

def QOI_END_MARKER_SIZE : Nat := 8

structure qoi_px where
  r : Nat
  g : Nat
  b : Nat
  a : Nat
deriving DecidableEq, Repr

def qoi_color_hash (r g b a : Nat) : Nat :=
  (r * 3 + g * 5 + b * 7 + a * 11) % 64

/-- `uint8_t` compound addition `x += static_cast<uint8_t>(d)`. -/
def addWrap (a : Nat) (d : Int) : Nat := (((a : Int) + d) % 256).toNat

structure qoi_state where
  pos : Nat
  run : Nat
  px : qoi_px
  index : List qoi_px
  out : List Nat
deriving DecidableEq, Repr

/-- Append the current pixel to the output buffer (3 or 4 bytes). -/
def qoi_emit (channels : Nat) (st : qoi_state) : qoi_state :=
  { st with out := st.out ++
      (if channels = 4 then [st.px.r, st.px.g, st.px.b, st.px.a]
       else [st.px.r, st.px.g, st.px.b]) }

/-- `index[qoi_color_hash(px)] = px` after processing a chunk. -/
def qoi_update_index (st : qoi_state) : qoi_state :=
  { st with index := st.index.set (qoi_color_hash st.px.r st.px.g st.px.b st.px.a) st.px }

/-- Process one chunk starting at `st.pos` (caller guarantees `st.pos < srcEnd`). -/
def qoi_step (data : List Nat) (srcEnd : Nat) (st : qoi_state) :
    Except decode_error qoi_state :=
  let b1 := byteAt data st.pos
  let pos1 := st.pos + 1
  if b1 = 0xFE then
    if pos1 + 3 > srcEnd then .error .truncated_data
    else
      let px : qoi_px :=
        ⟨byteAt data pos1, byteAt data (pos1 + 1), byteAt data (pos1 + 2), st.px.a⟩
      .ok { st with pos := pos1 + 3, px := px }
  else if b1 = 0xFF then
    if pos1 + 4 > srcEnd then .error .truncated_data
    else
      let px : qoi_px :=
        ⟨byteAt data pos1, byteAt data (pos1 + 1), byteAt data (pos1 + 2),
         byteAt data (pos1 + 3)⟩
      .ok { st with pos := pos1 + 4, px := px }
  else if b1 &&& 0xC0 = 0x00 then
    .ok { st with pos := pos1, px := st.index.getD b1 ⟨0, 0, 0, 0⟩ }
  else if b1 &&& 0xC0 = 0x40 then
    let px : qoi_px :=
      ⟨addWrap st.px.r ((((b1 >>> 4) &&& 0x03 : Nat) : Int) - 2),
       addWrap st.px.g ((((b1 >>> 2) &&& 0x03 : Nat) : Int) - 2),
       addWrap st.px.b (((b1 &&& 0x03 : Nat) : Int) - 2), st.px.a⟩
    .ok { st with pos := pos1, px := px }
  else if b1 &&& 0xC0 = 0x80 then
    if srcEnd ≤ pos1 then .error .truncated_data
    else
      let b2 := byteAt data pos1
      let vg : Int := ((b1 &&& 0x3F : Nat) : Int) - 32
      let px : qoi_px :=
        ⟨addWrap st.px.r (vg - 8 + (((b2 >>> 4) &&& 0x0F : Nat) : Int)),
         addWrap st.px.g vg, addWrap st.px.b (vg - 8 + ((b2 &&& 0x0F : Nat) : Int)),
         st.px.a⟩
      .ok { st with pos := pos1 + 1, px := px }
  else if b1 &&& 0xC0 = 0xC0 then
    .ok { st with pos := pos1, run := b1 &&& 0x3F }
  else .ok { st with pos := pos1 }

/-- The per-pixel `for` loop of `qoi_decoder::decode`; the `Nat` argument is
the number of pixels still to produce. -/
def qoiLoop (data : List Nat) (srcEnd channels : Nat) :
    Nat → qoi_state → Except decode_error qoi_state
  | 0, st => .ok st
  | n + 1, st =>
    if 0 < st.run then
      qoiLoop data srcEnd channels n (qoi_emit channels { st with run := st.run - 1 })
    else if st.pos < srcEnd then
      match qoi_step data srcEnd st with
      | .error e => .error e
      | .ok st' => qoiLoop data srcEnd channels n (qoi_emit channels (qoi_update_index st'))
    else qoiLoop data srcEnd channels n (qoi_emit channels st)

def qoi_init_state : qoi_state :=
  ⟨QOI_HEADER_SIZE, 0, ⟨0, 0, 0, 255⟩, List.replicate 64 ⟨0, 0, 0, 0⟩, []⟩

/-- `qoi_decoder::decode`. -/
def qoi_decode (data : List Nat) (options : decode_options)
    (surf : memory_surface) : decode_result × memory_surface :=
  if data.length < QOI_HEADER_SIZE + QOI_END_MARKER_SIZE then
    (.failure .truncated_data, surf)
  else if read_be32 data 0 ≠ QOI_MAGIC then (.failure .invalid_format, surf)
  else
    let width := read_be32 data 4
    let height := read_be32 data 8
    let channels := byteAt data 12
    if width = 0 ∨ height = 0 then (.failure .invalid_format, surf)
    else if channels ≠ 3 ∧ channels ≠ 4 then (.failure .invalid_format, surf)
    else
      let vres := validate_dimensions (toInt32 width) (toInt32 height) options
        DEFAULT_MAX_DIMENSION
      if ¬ vres.ok then (vres, surf)
      else if width * height > 400000000 then (.failure .dimensions_exceeded, surf)
      else
        let fmt := if channels = 4 then pixel_format.rgba8888 else .rgb888
        match surf.set_size (toInt32 width) (toInt32 height) fmt with
        | (false, s) => (.failure .internal_error, s)
        | (true, s) =>
          match qoiLoop data (data.length - QOI_END_MARKER_SIZE) channels
              (width * height) qoi_init_state with
          | .error e => (.failure e, s)
          | .ok st => (.success, write_rows s st.out (width * channels) (toInt32 height))

-- Checked instrumentation of the QOI decoder: every buffer read goes through
-- `byteAtC`; `none` would mean an out-of-bounds read.

def read_be32C (data : List Nat) (off : Nat) : Option Nat := do
  let b0 ← byteAtC data off
  let b1 ← byteAtC data (off + 1)
  let b2 ← byteAtC data (off + 2)
  let b3 ← byteAtC data (off + 3)
  pure ((b0 <<< 24) ||| (b1 <<< 16) ||| (b2 <<< 8) ||| b3)

def qoi_stepC (data : List Nat) (srcEnd : Nat) (st : qoi_state) :
    Option (Except decode_error qoi_state) := do
  let b1 ← byteAtC data st.pos
  let pos1 := st.pos + 1
  if b1 = 0xFE then
    if pos1 + 3 > srcEnd then pure (.error .truncated_data)
    else do
      let r ← byteAtC data pos1
      let g ← byteAtC data (pos1 + 1)
      let b ← byteAtC data (pos1 + 2)
      pure (.ok { st with pos := pos1 + 3, px := ⟨r, g, b, st.px.a⟩ })
  else if b1 = 0xFF then
    if pos1 + 4 > srcEnd then pure (.error .truncated_data)
    else do
      let r ← byteAtC data pos1
      let g ← byteAtC data (pos1 + 1)
      let b ← byteAtC data (pos1 + 2)
      let a ← byteAtC data (pos1 + 3)
      pure (.ok { st with pos := pos1 + 4, px := ⟨r, g, b, a⟩ })
  else if b1 &&& 0xC0 = 0x00 then
    pure (.ok { st with pos := pos1, px := st.index.getD b1 ⟨0, 0, 0, 0⟩ })
  else if b1 &&& 0xC0 = 0x40 then
    let px : qoi_px :=
      ⟨addWrap st.px.r ((((b1 >>> 4) &&& 0x03 : Nat) : Int) - 2),
       addWrap st.px.g ((((b1 >>> 2) &&& 0x03 : Nat) : Int) - 2),
       addWrap st.px.b (((b1 &&& 0x03 : Nat) : Int) - 2), st.px.a⟩
    pure (.ok { st with pos := pos1, px := px })
  else if b1 &&& 0xC0 = 0x80 then
    if srcEnd ≤ pos1 then pure (.error .truncated_data)
    else do
      let b2 ← byteAtC data pos1
      let vg : Int := ((b1 &&& 0x3F : Nat) : Int) - 32
      let px : qoi_px :=
        ⟨addWrap st.px.r (vg - 8 + (((b2 >>> 4) &&& 0x0F : Nat) : Int)),
         addWrap st.px.g vg, addWrap st.px.b (vg - 8 + ((b2 &&& 0x0F : Nat) : Int)),
         st.px.a⟩
      pure (.ok { st with pos := pos1 + 1, px := px })
  else if b1 &&& 0xC0 = 0xC0 then
    pure (.ok { st with pos := pos1, run := b1 &&& 0x3F })
  else pure (.ok { st with pos := pos1 })

def qoiLoopC (data : List Nat) (srcEnd channels : Nat) :
    Nat → qoi_state → Option (Except decode_error qoi_state)
  | 0, st => some (.ok st)
  | n + 1, st =>
    if 0 < st.run then
      qoiLoopC data srcEnd channels n (qoi_emit channels { st with run := st.run - 1 })
    else if st.pos < srcEnd then
      match qoi_stepC data srcEnd st with
      | Option.none => none
      | some (.error e) => some (.error e)
      | some (.ok st') =>
        qoiLoopC data srcEnd channels n (qoi_emit channels (qoi_update_index st'))
    else qoiLoopC data srcEnd channels n (qoi_emit channels st)

def qoi_decodeC (data : List Nat) (options : decode_options)
    (surf : memory_surface) : Option (decode_result × memory_surface) := do
  if data.length < QOI_HEADER_SIZE + QOI_END_MARKER_SIZE then
    pure (.failure .truncated_data, surf)
  else do
    let magic ← read_be32C data 0
    if magic ≠ QOI_MAGIC then pure (.failure .invalid_format, surf)
    else do
      let width ← read_be32C data 4
      let height ← read_be32C data 8
      let channels ← byteAtC data 12
      if width = 0 ∨ height = 0 then pure (.failure .invalid_format, surf)
      else if channels ≠ 3 ∧ channels ≠ 4 then pure (.failure .invalid_format, surf)
      else
        let vres := validate_dimensions (toInt32 width) (toInt32 height) options
          DEFAULT_MAX_DIMENSION
        if ¬ vres.ok then pure (vres, surf)
        else if width * height > 400000000 then pure (.failure .dimensions_exceeded, surf)
        else
          let fmt := if channels = 4 then pixel_format.rgba8888 else .rgb888
          match surf.set_size (toInt32 width) (toInt32 height) fmt with
          | (false, s) => pure (.failure .internal_error, s)
          | (true, s) =>
            match qoiLoopC data (data.length - QOI_END_MARKER_SIZE) channels
                (width * height) qoi_init_state with
            | Option.none => none
            | some (.error e) => pure (.failure e, s)
            | some (.ok st) =>
              pure (.success, write_rows s st.out (width * channels) (toInt32 height))

-- ===========================================================================
-- codecs/ico.cpp
-- ===========================================================================

structure ico_dir_entry where
  width : Nat
  height : Nat
  color_count : Nat
  reserved : Nat
  planes : Nat
  bit_count : Nat
  size : Nat
  offset : Nat
deriving DecidableEq, Repr

/-- `parse_ico_header`: `some (reserved, type, count)` on success. -/
def parse_ico_header (data : List Nat) : Option (Nat × Nat × Nat) :=
  if data.length < 6 then none
  else
    let reserved := read_le16 data 0
    let ty := read_le16 data 2
    let count := read_le16 data 4
    if reserved = 0 ∧ (ty = 1 ∨ ty = 2) then some (reserved, ty, count) else none

def parse_ico_dir_entry (data : List Nat) (off : Nat) : ico_dir_entry :=
  ⟨byteAt data off, byteAt data (off + 1), byteAt data (off + 2), byteAt data (off + 3),
   read_le16 data (off + 4), read_le16 data (off + 6), read_le32 data (off + 8),
   read_le32 data (off + 12)⟩

/-- The directory-entry loop of `ico_decoder::decode`: parse up to `count`
entries starting at directory offset `dirOff`, stopping at the first entry
that does not fit in the buffer, and keeping only entries that pass the
per-entry validation. -/
def ico_collect_entries (data : List Nat) (maxW maxH : Int) :
    Nat → Nat → List ico_dir_entry
  | 0, _ => []
  | n + 1, dirOff =>
    if data.length < dirOff + 16 then []
    else
      let e := parse_ico_dir_entry data dirOff
      let w : Int := if e.width = 0 then 256 else (e.width : Int)
      let h : Int := if e.height = 0 then 256 else (e.height : Int)
      let rest := ico_collect_entries data maxW maxH n (dirOff + 16)
      if w ≤ maxW ∧ h ≤ maxH ∧ e.offset < data.length ∧ 0 < e.size then e :: rest
      else rest

/-- The output of `decode_icon_image` (RGBA pixel data). -/
structure decoded_icon where
  width : Nat
  height : Nat
  pixels : List Nat
deriving DecidableEq, Repr

/-- Spec-side quantity: the maximum of the sub-image widths (as the running
maximum `create_icon_atlas` computes, seeded with 0). -/
def atlas_max_width (icons : List decoded_icon) : Nat :=
  icons.foldl (fun w ic => max w ic.width) 0

/-- Spec-side quantity: the sum of the sub-image heights. -/
def atlas_sum_heights (icons : List decoded_icon) : Nat :=
  (icons.map decoded_icon.height).sum

/-- The atlas-dimension loop of `create_icon_atlas`: running maximum width and
summed height, with the incremental height-limit check (`size_t` compare
against `static_cast<size_t>(max_h)`).  `none` models the early
`dimensions_exceeded` return. -/
def atlas_dims (maxH : Int) : List decoded_icon → Nat → Nat → Option (Nat × Nat)
  | [], w, h => some (w, h)
  | ic :: rest, w, h =>
    let h' := h + ic.height
    if maxH.toNat < h' then none
    else atlas_dims maxH rest (max w ic.width) h'

/-- The copy loop of `create_icon_atlas`: blit each icon's rows at the running
`y_offset` and record its subrect (`user_tag` is `static_cast<uint32_t>(i)`). -/
def atlas_copy : List decoded_icon → Nat → Nat → memory_surface → memory_surface
  | [], _, _, s => s
  | ic :: rest, i, yOff, s =>
    let s1 := (List.range ic.height).foldl
      (fun s y =>
        s.write_pixels 0 (Int.ofNat (yOff + y)) (Int.ofNat (ic.width * 4))
          (ic.pixels.drop (y * ic.width * 4))) s
    let s2 := s1.set_subrect (Int.ofNat i)
      ⟨⟨0, Int.ofNat yOff, Int.ofNat ic.width, Int.ofNat ic.height⟩, .sprite, i % 2 ^ 32⟩
    atlas_copy rest (i + 1) (yOff + ic.height) s2

/-- `create_icon_atlas`. -/
def create_icon_atlas (icons : List decoded_icon) (s : memory_surface)
    (maxW maxH : Int) : decode_result × memory_surface :=
  if icons = [] then (.failure .invalid_format, s)
  else
    match atlas_dims maxH icons 0 0 with
    | Option.none => (.failure .dimensions_exceeded, s)
    | some (aw, ah) =>
      if maxW.toNat < aw then (.failure .dimensions_exceeded, s)
      else
        match s.set_size (toInt32 aw) (toInt32 ah) .rgba8888 with
        | (false, s') => (.failure .internal_error, s')
        | (true, s') => (.success, atlas_copy icons 0 0 s')

/-- `ico_decoder::decode`, parameterised by `decode_icon_image` (whose PNG
branch delegates to the external PNG decoder); the oracle receives the
entry's byte range and the effective dimension limits. -/
def ico_decode (decIcon : List Nat → Int → Int → Option decoded_icon)
    (data : List Nat) (options : decode_options) (surf : memory_surface) :
    decode_result × memory_surface :=
  match parse_ico_header data with
  | Option.none => (.failure .invalid_format, surf)
  | some (_, _, count) =>
    if count = 0 then (.failure .invalid_format, surf)
    else
      let maxW := if options.max_width > 0 then options.max_width else 256
      let maxH := if options.max_height > 0 then options.max_height else 256
      let entries := ico_collect_entries data maxW maxH count 6
      if entries = [] then (.failure .invalid_format, surf)
      else
        let icons := entries.filterMap fun e =>
          if data.length < e.offset + e.size then none
          else decIcon ((data.drop e.offset).take e.size) maxW maxH
        create_icon_atlas icons surf maxW maxH

-- ===========================================================================
-- codec.cpp : registry and the auto-detecting decode entry point
-- ===========================================================================

/-- One registered decoder (its sniff predicate and decode function). -/
structure reg_decoder where
  sniff : List Nat → Bool
  decode : List Nat → decode_options → memory_surface → decode_result × memory_surface

/-- `codec_registry::find_decoder(bytes)`: linear scan, first sniff match. -/
def find_decoder : List reg_decoder → List Nat → Option reg_decoder
  | [], _ => none
  | d :: rest, data => if d.sniff data then some d else find_decoder rest data

/-- The free function `decode(data, surf, options)`: sniff then dispatch. -/
def registry_decode (decoders : List reg_decoder) (data : List Nat)
    (options : decode_options) (surf : memory_surface) :
    decode_result × memory_surface :=
  match find_decoder decoders data with
  | Option.none => (.failure .invalid_format, surf)
  | some d => d.decode data options surf

-- ===========================================================================
-- codecs/png.cpp : PNG encoder
-- ===========================================================================

/-- The RGBA8888 conversion at the heart of `encode_png` (the `switch` over
the surface format). -/
def build_rgba (surf : memory_surface) : List Nat :=
  let w := surf.width.toNat
  let h := surf.height.toNat
  match surf.format with
  | .rgba8888 => surf.pixels
  | .rgb888 =>
    (List.range (w * h)).flatMap fun i =>
      [byteAt surf.pixels (i * 3), byteAt surf.pixels (i * 3 + 1),
       byteAt surf.pixels (i * 3 + 2), 255]
  | .indexed8 =>
    (List.range (w * h)).flatMap fun i =>
      let idx := byteAt surf.pixels i
      let palOff := idx * 3
      if palOff + 2 < surf.palette.length then
        [byteAt surf.palette palOff, byteAt surf.palette (palOff + 1),
         byteAt surf.palette (palOff + 2), 255]
      else [0, 0, 0, 255]

/-- `encode_png`, parameterised by the external PNG writer (`lodepng::encode`);
`none` models a nonzero lodepng error code. -/
def encode_png (lode : List Nat → Nat → Nat → Option (List Nat))
    (surf : memory_surface) : List Nat :=
  if surf.width ≤ 0 ∨ surf.height ≤ 0 then []
  else
    match lode (build_rgba surf) surf.width.toNat surf.height.toNat with
    | Option.none => []
    | some png => png

-- ===========================================================================
-- Concrete example inputs used by witnesses and counterexamples
-- ===========================================================================

/-- A GG-compressed buffer whose stream ends in a bare escape byte:
load address 0x6000, 97 literal zero bytes, then the escape with nothing
after it (length 100, so `is_gg_koala` accepts it). -/
def gg_trunc_example : List Nat :=
  0x00 :: 0x60 :: (List.replicate 97 0 ++ [GG_RLE_ESCAPE])

/-- The decompressed 10001-byte Koala payload used by the C1 witness:
10000 bytes of 0xAA followed by one literal 0x07. -/
def gg_payload_example : List Nat := List.replicate 10000 0xAA ++ [0x07]

/-- A GG-compressed Koala file decompressing to `gg_payload_example`:
load address 0x6000, forty runs of 250 copies of 0xAA, one literal 0x07
(123 bytes in total). -/
def gg_compressed_example : List Nat :=
  0x00 :: 0x60 :: ((List.replicate 40 [GG_RLE_ESCAPE, 0xAA, 0xFA]).flatten ++ [0x07])

/-- The matching uncompressed 10003-byte Koala file: a 2-byte load address
followed by the same payload. -/
def gg_uncompressed_example : List Nat := 0x00 :: 0x60 :: gg_payload_example

/-- A well-formed ICO file (reserved 0, type 1, one directory entry) whose
single icon is declared 4x4, with its 1-byte image blob at offset 22. -/
def ico_4x4_example : List Nat :=
  [0, 0, 1, 0, 1, 0] ++ [4, 4, 0, 0, 1, 0, 32, 0, 1, 0, 0, 0, 22, 0, 0, 0] ++ [0]

/-- Options whose positive limits (2x2) are smaller than the 4x4 icon. -/
def small_limit_options : decode_options := { max_width := 2, max_height := 2 }

/-- A 2x1 indexed surface with a one-entry palette: index 1 has no complete
palette entry (used by the C9 witness). -/
def png_indexed_example : memory_surface :=
  ⟨[0, 1], [10, 20, 30], [], 2, 1, 2, .indexed8⟩

/-- A complete, valid 2x1 3-channel QOI file: magic, width 2, height 1,
channels 3, colorspace 0, one QOI_OP_RGB chunk (pixel (9,8,7)), end marker. -/
def qoiFullW : List Nat :=
  [0x71, 0x6F, 0x69, 0x66, 0, 0, 0, 2, 0, 0, 0, 1, 3, 0] ++
    [0xFE, 9, 8, 7] ++ [0, 0, 0, 0, 0, 0, 0, 1]

/-- `qoiFullW` truncated right after the header: the whole chunk stream is
gone but the file still meets the 22-byte minimum length. -/
def qoiTruncW : List Nat := qoiFullW.take 22

/-- The decoder state after processing the single RGB chunk of `qoiFullW`:
position 18 (= chunk area end), run 0, current pixel (9,8,7,255), that pixel
stored at its hash slot 41, three bytes of output. -/
def qoiW_st1 : qoi_state :=
  ⟨18, 0, ⟨9, 8, 7, 255⟩,
    (List.replicate 64 (⟨0, 0, 0, 0⟩ : qoi_px)).set 41 ⟨9, 8, 7, 255⟩, [9, 8, 7]⟩

/-- A 40-byte ICO file with two directory entries (2x1 and 1x2 icons), whose
1-byte image blobs sit at offsets 38 and 39. -/
def icoW_data : List Nat :=
  [0, 0, 1, 0, 2, 0] ++
    [2, 1, 0, 0, 1, 0, 32, 0, 1, 0, 0, 0, 38, 0, 0, 0] ++
    [1, 2, 0, 0, 1, 0, 32, 0, 1, 0, 0, 0, 39, 0, 0, 0] ++
    [0xAA, 0xBB]

/-- A concrete `decode_icon_image` oracle for the two blobs of `icoW_data`. -/
def icoW_dec : List Nat → Int → Int → Option decoded_icon := fun bytes _ _ =>
  if bytes = [0xAA] then some ⟨2, 1, List.replicate 8 1⟩
  else if bytes = [0xBB] then some ⟨1, 2, List.replicate 8 2⟩
  else none

/-- The two directory entries of `icoW_data` as the entry loop parses them. -/
def icoW_es : List ico_dir_entry :=
  [⟨2, 1, 0, 0, 1, 32, 1, 38⟩, ⟨1, 2, 0, 0, 1, 32, 1, 39⟩]

/-- The two decoded icons of `icoW_data` under the `icoW_dec` oracle. -/
def icoW_icons : List decoded_icon :=
  [⟨2, 1, List.replicate 8 1⟩, ⟨1, 2, List.replicate 8 2⟩]

-- ===========================================================================
-- Theorems
-- ===========================================================================


theorem ggLoop_some_length (sz : Nat) (input acc out : List Nat)
    (h : ggLoop sz input acc = some out) : out.length = sz := by
  suffices H : ∀ (n : Nat) (input acc out : List Nat), input.length ≤ n →
      ggLoop sz input acc = some out → out.length = sz from
    H input.length input acc out le_rfl h
  intro n
  induction n with
  | zero =>
    intro input acc out hlen h
    have : input = [] := List.eq_nil_of_length_eq_zero (by omega)
    subst this
    rw [ggLoop] at h
    split at h
    · cases h; omega
    · exact absurd h (by simp)
  | succ n ih =>
    intro input acc out hlen h
    rcases input with _ | ⟨b, _ | ⟨v, _ | ⟨c, r2⟩⟩⟩
    · simp only [ggLoop] at h
      split at h
      · cases h; omega
      · exact absurd h (by simp)
    · simp only [ggLoop] at h
      split at h
      · split at h
        · exact absurd h (by simp)
        · exact ih [] _ out (by simp) h
      · split at h
        · cases h; omega
        · exact absurd h (by simp)
    · simp only [ggLoop] at h
      split at h
      · split at h
        · exact absurd h (by simp)
        · exact ih [v] _ out (by simp only [List.length_cons] at hlen ⊢; omega) h
      · split at h
        · cases h; omega
        · exact absurd h (by simp)
    · simp only [ggLoop] at h
      split at h
      · split at h
        · exact ih r2 _ out (by simp only [List.length_cons] at hlen ⊢; omega) h
        · exact ih (v :: c :: r2) _ out
            (by simp only [List.length_cons] at hlen ⊢; omega) h
      · split at h
        · cases h; omega
        · exact absurd h (by simp)

theorem drpLoop_some_length (esc sz : Nat) (input acc out : List Nat)
    (h : drpLoop esc sz input acc = some out) : out.length = sz := by
  suffices H : ∀ (n : Nat) (input acc out : List Nat), input.length ≤ n →
      drpLoop esc sz input acc = some out → out.length = sz from
    H input.length input acc out le_rfl h
  intro n
  induction n with
  | zero =>
    intro input acc out hlen h
    have : input = [] := List.eq_nil_of_length_eq_zero (by omega)
    subst this
    rw [drpLoop] at h
    split at h
    · cases h; omega
    · exact absurd h (by simp)
  | succ n ih =>
    intro input acc out hlen h
    rcases input with _ | ⟨b, _ | ⟨v, _ | ⟨c, r2⟩⟩⟩
    · simp only [drpLoop] at h
      split at h
      · cases h; omega
      · exact absurd h (by simp)
    · simp only [drpLoop] at h
      split at h
      · split at h
        · exact absurd h (by simp)
        · exact ih [] _ out (by simp) h
      · split at h
        · cases h; omega
        · exact absurd h (by simp)
    · simp only [drpLoop] at h
      split at h
      · split at h
        · exact absurd h (by simp)
        · exact ih [v] _ out (by simp only [List.length_cons] at hlen ⊢; omega) h
      · split at h
        · cases h; omega
        · exact absurd h (by simp)
    · simp only [drpLoop] at h
      split at h
      · split at h
        · exact ih r2 _ out (by simp only [List.length_cons] at hlen ⊢; omega) h
        · exact ih (v :: c :: r2) _ out
            (by simp only [List.length_cons] at hlen ⊢; omega) h
      · split at h
        · cases h; omega
        · exact absurd h (by simp)

theorem is_gg_koala_length (data : List Nat) (h : is_gg_koala data = true) :
    100 ≤ data.length ∧ data.length < KOALA_SIZE_WITHOUT_ADDR := by
  unfold is_gg_koala at h
  split at h
  · exact absurd h (by simp)
  · next hcond =>
    simp only [Bool.or_eq_true, decide_eq_true_eq, not_or] at hcond
    push_neg at hcond
    exact ⟨hcond.1, hcond.2⟩

theorem is_gg_koala_false_of_large (data : List Nat)
    (h : KOALA_SIZE_WITHOUT_ADDR ≤ data.length) : is_gg_koala data = false := by
  unfold is_gg_koala
  split
  · rfl
  · next hcond =>
    exact absurd (by simp [h] : (decide (data.length < 100) ||
      decide (KOALA_SIZE_WITHOUT_ADDR ≤ data.length)) = true) hcond

/-- C6: every RLE decompressor (GG in the Koala decoder, DRP in the DrazLace
decoder) fails when an escape byte is not followed by both its run bytes,
rejects any requested decompressed size exceeding 1000 times the input size,
and a successful decompression produces exactly (hence never more than) the
requested number of bytes; a decompression failure makes the decoder return
`truncated_data`. -/
theorem rle_decompressor_guards :
    (∀ (rest acc : List Nat) (sz : Nat), acc.length < sz → rest.length < 2 →
        ggLoop sz (GG_RLE_ESCAPE :: rest) acc = none) ∧
    (∀ (esc : Nat) (rest acc : List Nat) (sz : Nat), acc.length < sz →
        rest.length < 2 → drpLoop esc sz (esc :: rest) acc = none) ∧
    (∀ (data : List Nat) (off sz : Nat), data.length * MAX_COMPRESSION_RATIO < sz →
        decompress_gg data off sz = none) ∧
    (∀ (data : List Nat) (sz : Nat), data.length * MAX_COMPRESSION_RATIO < sz →
        decompress_drp data sz = none) ∧
    (∀ (data : List Nat) (off sz : Nat) (out : List Nat),
        decompress_gg data off sz = some out → out.length = sz) ∧
    (∀ (data : List Nat) (sz : Nat) (out : List Nat),
        decompress_drp data sz = some out → out.length = sz) ∧
    (∀ (data : List Nat) (options : decode_options) (surf : memory_surface),
        is_gg_koala data = true → decompress_gg data 2 KOALA_SIZE_WITHOUT_ADDR = none →
        koala_decode data options surf = (.failure .truncated_data, surf)) ∧
    (∀ (data : List Nat) (options : decode_options) (surf : memory_surface),
        has_drazlace_signature data = true →
        decompress_drp data DRAZLACE_UNPACKED_SIZE = none →
        drazlace_decode data options surf = (.failure .truncated_data, surf)) := by
  refine ⟨?_, ?_, ?_, ?_, ?_, ?_, ?_, ?_⟩
  · intro rest acc sz hacc hrest
    rcases rest with _ | ⟨v, _ | ⟨c, r2⟩⟩
    · simp [ggLoop, hacc]
    · simp [ggLoop, hacc]
    · simp only [List.length_cons] at hrest; omega
  · intro esc rest acc sz hacc hrest
    rcases rest with _ | ⟨v, _ | ⟨c, r2⟩⟩
    · simp [drpLoop, hacc]
    · simp [drpLoop, hacc]
    · simp only [List.length_cons] at hrest; omega
  · intro data off sz hbomb
    unfold decompress_gg
    rw [if_pos (by omega)]
  · intro data sz hbomb
    unfold decompress_drp
    by_cases h17 : data.length < 17
    · rw [if_pos h17]
    · rw [if_neg h17, if_pos hbomb]
  · intro data off sz out h
    unfold decompress_gg at h
    split at h
    · exact absurd h (by simp)
    · exact ggLoop_some_length sz _ _ out h
  · intro data sz out h
    unfold decompress_drp at h
    split at h
    · exact absurd h (by simp)
    · split at h
      · exact absurd h (by simp)
      · exact drpLoop_some_length _ sz _ _ out h
  · intro data options surf hgg hdec
    have hlen := is_gg_koala_length data hgg
    have hne : data ≠ [] := by
      intro he; rw [he] at hlen; exact absurd hlen.1 (by simp)
    unfold koala_decode
    rw [if_neg hne, hgg]
    simp only [if_true, hdec]
  · intro data options surf hsig hdec
    have hlen : 2 + 13 ≤ data.length := by
      by_contra hc
      unfold has_drazlace_signature at hsig
      rw [if_pos (by omega)] at hsig
      exact absurd hsig (by simp)
    have hne : data ≠ [] := by
      intro he; rw [he] at hlen; simp at hlen
    unfold drazlace_decode
    rw [if_neg hne, hsig]
    simp only [if_true, hdec]

theorem rle_decompressor_guards_witness :
    ggLoop 5 [GG_RLE_ESCAPE] [] = none ∧
      drpLoop 9 5 [9, 1] [] = none ∧
      decompress_gg [1, 2] 0 3000 = none ∧
      decompress_drp (List.replicate 17 1) 18242 = none ∧
      koala_decode gg_trunc_example {} {} =
        (.failure .truncated_data, ({} : memory_surface)) := by
  obtain ⟨h1, h2, h3, h4, _, _, h7, _⟩ := rle_decompressor_guards
  exact ⟨h1 [] [] 5 (by decide) (by decide),
    h2 9 [1] [] 5 (by decide) (by decide),
    h3 [1, 2] 0 3000 (by decide),
    h4 (List.replicate 17 1) 18242 (by decide),
    h7 gg_trunc_example {} {} (by decide) (by decide)⟩

theorem listWrite_length (dst src : List Nat) (off n : Nat)
    (h : off + n ≤ dst.length) : (listWrite dst off src n).length = dst.length := by
  simp [listWrite]
  omega

theorem invariant_update_pixels (s : memory_surface) (p : List Nat)
    (h : p.length = s.pixels.length) (hs : surface_invariant s) :
    surface_invariant { s with pixels := p } := by
  obtain ⟨h1, h2, h3⟩ := hs
  exact ⟨by simpa [h] using h1, h2, h3⟩

theorem invariant_update_palette (s : memory_surface) (p : List Nat)
    (h : p.length = s.palette.length) (hs : surface_invariant s) :
    surface_invariant { s with palette := p } := by
  obtain ⟨h1, h2, h3⟩ := hs
  exact ⟨h1, by simpa [h] using h2, by simpa [h] using h3⟩

theorem invariant_update_subrects (s : memory_surface) (sr : List subrect)
    (hs : surface_invariant s) : surface_invariant { s with subrects := sr } := by
  obtain ⟨h1, h2, h3⟩ := hs
  exact ⟨h1, h2, h3⟩

/-- C5: for every memory_surface and every sequence of surface operations
(set_size, write_pixels, write_pixel, set_palette_size, write_palette,
set_subrect) with arbitrary arguments, after each operation the pixel buffer
length equals `width * height * bytes_per_pixel format`, and the palette
length is a multiple of 3 and at most 768 bytes.  Stated as: the invariant
holds for a freshly constructed surface and is preserved by every operation. -/
theorem surface_invariant_preserved :
    surface_invariant ({} : memory_surface) ∧
      ∀ (s : memory_surface) (op : surface_op),
        surface_invariant s → surface_invariant (apply_op s op) := by
  constructor
  · simp [surface_invariant]
  · intro s op hs
    obtain ⟨hp, hpal3, hpal768⟩ := hs
    cases op with
    | setSize w h fmt =>
      simp only [apply_op, memory_surface.set_size]
      split
      · exact ⟨hp, hpal3, hpal768⟩
      · split
        · exact ⟨hp, hpal3, hpal768⟩
        · split
          · exact ⟨hp, hpal3, hpal768⟩
          · split
            · exact ⟨hp, hpal3, hpal768⟩
            · refine ⟨?_, by simp, by simp⟩
              simp [surface_invariant]
              ring
    | writePixels x y c px =>
      simp only [apply_op, memory_surface.write_pixels]
      split
      · exact ⟨hp, hpal3, hpal768⟩
      · split
        · exact ⟨hp, hpal3, hpal768⟩
        · split
          next hle =>
            exact invariant_update_pixels s _ (listWrite_length _ _ _ _ hle)
              ⟨hp, hpal3, hpal768⟩
          · exact ⟨hp, hpal3, hpal768⟩
    | writePixel x y v =>
      simp only [apply_op, memory_surface.write_pixel]
      split
      · exact ⟨hp, hpal3, hpal768⟩
      · split
        · exact ⟨hp, hpal3, hpal768⟩
        · split
          · exact invariant_update_pixels s _ (by simp) ⟨hp, hpal3, hpal768⟩
          · exact ⟨hp, hpal3, hpal768⟩
    | setPaletteSize n =>
      simp only [apply_op, memory_surface.set_palette_size]
      split
      next hn => exact ⟨hp, hpal3, hpal768⟩
      next hn =>
        push_neg at hn
        refine ⟨hp, by simp [Nat.mul_comm], ?_⟩
        simp only [List.length_replicate]
        omega
    | writePalette st cs =>
      simp only [apply_op, memory_surface.write_palette]
      split
      · exact ⟨hp, hpal3, hpal768⟩
      · split
        · exact ⟨hp, hpal3, hpal768⟩
        next hlt =>
          push_neg at hlt
          exact invariant_update_palette s _ (listWrite_length _ _ _ _ (by omega))
            ⟨hp, hpal3, hpal768⟩
    | setSubrect i sr =>
      simp only [apply_op, memory_surface.set_subrect]
      split
      · exact ⟨hp, hpal3, hpal768⟩
      · exact invariant_update_subrects s _ ⟨hp, hpal3, hpal768⟩

theorem surface_invariant_preserved_witness :
    surface_invariant (apply_op {} (surface_op.setSize 2 3 .rgb888)) :=
  surface_invariant_preserved.2 {} (surface_op.setSize 2 3 .rgb888) (by decide)

/-- C4: the registry's auto-detecting decode dispatches to the first decoder
in registration order whose sniff predicate accepts the bytes (earlier
entries always pre-empt later ones), and when no registered decoder's sniff
accepts the bytes it returns `invalid_format` without calling any decoder's
decode (the surface is returned untouched). -/
theorem registry_first_match_dispatch :
    (∀ (decoders : List reg_decoder) (data : List Nat) (options : decode_options)
        (surf : memory_surface), (∀ d ∈ decoders, d.sniff data = false) →
        find_decoder decoders data = none ∧
        registry_decode decoders data options surf = (.failure .invalid_format, surf)) ∧
    (∀ (pre post : List reg_decoder) (d : reg_decoder) (data : List Nat)
        (options : decode_options) (surf : memory_surface),
        (∀ e ∈ pre, e.sniff data = false) → d.sniff data = true →
        find_decoder (pre ++ d :: post) data = some d ∧
        registry_decode (pre ++ d :: post) data options surf =
          d.decode data options surf) := by
  have hfind_none : ∀ (decoders : List reg_decoder) (data : List Nat),
      (∀ d ∈ decoders, d.sniff data = false) → find_decoder decoders data = none := by
    intro decoders data h
    induction decoders with
    | nil => rfl
    | cons d rest ih =>
      rw [find_decoder, if_neg]
      · exact ih fun e he => h e (List.mem_cons_of_mem d he)
      · rw [h d (List.mem_cons_self d rest)]; simp
  have hfind_first : ∀ (pre post : List reg_decoder) (d : reg_decoder)
      (data : List Nat), (∀ e ∈ pre, e.sniff data = false) → d.sniff data = true →
      find_decoder (pre ++ d :: post) data = some d := by
    intro pre post d data hpre hd
    induction pre with
    | nil => simp only [List.nil_append]; rw [find_decoder, if_pos (by rw [hd])]
    | cons e rest ih =>
      rw [List.cons_append, find_decoder, if_neg]
      · exact ih fun e' he' => hpre e' (List.mem_cons_of_mem e he')
      · rw [hpre e (List.mem_cons_self e rest)]; simp
  constructor
  · intro decoders data options surf h
    refine ⟨hfind_none decoders data h, ?_⟩
    unfold registry_decode
    rw [hfind_none decoders data h]
  · intro pre post d data options surf hpre hd
    refine ⟨hfind_first pre post d data hpre hd, ?_⟩
    unfold registry_decode
    rw [hfind_first pre post d data hpre hd]

theorem registry_first_match_dispatch_witness :
    find_decoder [⟨fun _ => false, fun _ _ s => (.failure .invalid_format, s)⟩,
        ⟨fun _ => true, fun _ _ s => (.success, s)⟩] [] =
      some ⟨fun _ => true, fun _ _ s => (.success, s)⟩ ∧
      registry_decode [⟨fun _ => false, fun _ _ s => (.failure .invalid_format, s)⟩,
          ⟨fun _ => true, fun _ _ s => (.success, s)⟩] [] {} {} =
        (.success, ({} : memory_surface)) := by
  have h := registry_first_match_dispatch.2
    [⟨fun _ => false, fun _ _ s => (.failure .invalid_format, s)⟩] []
    ⟨fun _ => true, fun _ _ s => (.success, s)⟩ [] {} {}
    (by intro e he; simp at he; rw [he]) rfl
  simpa using h

theorem add_eq_xor_add_two_land : ∀ (x y : Nat), x + y = (x ^^^ y) + 2 * (x &&& y) := by
  intro x
  induction x using Nat.binaryRec with
  | z => intro y; simp
  | f b n ih =>
    intro y
    induction y using Nat.bitCasesOn with
    | h c m =>
      rw [Nat.xor_bit, Nat.land_bit, Nat.bit_val, Nat.bit_val, Nat.bit_val, Nat.bit_val]
      have h2 := ih m
      cases b <;> cases c <;> simp [Bool.toNat] <;> omega

theorem testBit_concat (hi lo k i : Nat) (hl : lo < 2 ^ k) :
    (hi * 2 ^ k + lo).testBit i = if i < k then lo.testBit i else hi.testBit (i - k) := by
  rcases Nat.lt_or_ge i k with hik | hik
  · rw [if_pos hik]
    have hsplit : 2 ^ k = 2 ^ i * 2 ^ (k - i) := by
      rw [← pow_add]; congr 1; omega
    have e1 : hi * 2 ^ k + lo = 2 ^ i * (hi * 2 ^ (k - i)) + lo := by
      rw [hsplit]; ring
    rw [Nat.testBit_to_div_mod, Nat.testBit_to_div_mod, e1,
      Nat.mul_add_div (Nat.pos_pow_of_pos i (by norm_num))]
    have e3 : hi * 2 ^ (k - i) = 2 * (hi * 2 ^ (k - i - 1)) := by
      obtain ⟨j, hj⟩ : ∃ j, k - i = j + 1 := ⟨k - i - 1, by omega⟩
      rw [hj, pow_succ]
      simp only [Nat.add_sub_cancel]
      ring
    rw [e3, decide_eq_decide]
    omega
  · rw [if_neg (by omega)]
    have hsplit : 2 ^ i = 2 ^ k * 2 ^ (i - k) := by
      rw [← pow_add]; congr 1; omega
    have e1 : (hi * 2 ^ k + lo) / 2 ^ i = hi / 2 ^ (i - k) := by
      rw [hsplit, ← Nat.div_div_eq_div_mul]
      have e0 : (hi * 2 ^ k + lo) / 2 ^ k = hi := by
        rw [Nat.mul_comm hi, Nat.mul_add_div (Nat.pos_pow_of_pos k (by norm_num)),
          Nat.div_eq_of_lt hl]
        omega
      rw [e0]
    rw [Nat.testBit_to_div_mod, Nat.testBit_to_div_mod, e1]

theorem concat_land (k h1 l1 h2 l2 : Nat) (hl1 : l1 < 2 ^ k) (hl2 : l2 < 2 ^ k) :
    (h1 * 2 ^ k + l1) &&& (h2 * 2 ^ k + l2) = (h1 &&& h2) * 2 ^ k + (l1 &&& l2) := by
  have hl : l1 &&& l2 < 2 ^ k := lt_of_le_of_lt Nat.and_le_left hl1
  apply Nat.eq_of_testBit_eq
  intro i
  rw [Nat.testBit_and, testBit_concat _ _ _ _ hl1, testBit_concat _ _ _ _ hl2,
    testBit_concat _ _ _ _ hl]
  split <;> simp [Nat.testBit_and]

theorem concat_xor (k h1 l1 h2 l2 : Nat) (hl1 : l1 < 2 ^ k) (hl2 : l2 < 2 ^ k) :
    (h1 * 2 ^ k + l1) ^^^ (h2 * 2 ^ k + l2) = (h1 ^^^ h2) * 2 ^ k + (l1 ^^^ l2) := by
  have hl : l1 ^^^ l2 < 2 ^ k := Nat.xor_lt_two_pow hl1 hl2
  apply Nat.eq_of_testBit_eq
  intro i
  rw [Nat.testBit_xor, testBit_concat _ _ _ _ hl1, testBit_concat _ _ _ _ hl2,
    testBit_concat _ _ _ _ hl]
  split <;> simp [Nat.testBit_xor]

theorem nat_and_255 (x : Nat) : x &&& 255 = x % 256 := by
  have h := Nat.and_pow_two_sub_one_eq_mod x 8
  norm_num at h
  exact h

theorem nat_and_127 (x : Nat) : x &&& 127 = x % 128 := by
  have h := Nat.and_pow_two_sub_one_eq_mod x 7
  norm_num at h
  exact h

theorem byte_avg (u v : Nat) : (u &&& v) + (u ^^^ v) / 2 = (u + v) / 2 := by
  have h := add_eq_xor_add_two_land u v
  omega

theorem bytes3_mod256 (B2 B1 B0 : Nat) (h0 : B0 < 256) :
    (B2 * 65536 + (B1 * 256 + B0)) % 256 = B0 := by
  omega

theorem bytes3_div256_mod (B2 B1 B0 : Nat) (h1 : B1 < 256) (h0 : B0 < 256) :
    (B2 * 65536 + (B1 * 256 + B0)) / 256 % 256 = B1 := by
  have e : B2 * 65536 + (B1 * 256 + B0) = 256 * (B2 * 256 + B1) + B0 := by ring
  rw [e, Nat.mul_add_div (by norm_num), Nat.div_eq_of_lt h0, Nat.add_zero]
  omega

theorem bytes3_div65536_mod (B2 B1 B0 : Nat) (h2 : B2 < 256) (h1 : B1 < 256)
    (h0 : B0 < 256) :
    (B2 * 65536 + (B1 * 256 + B0)) / 65536 % 256 = B2 := by
  have e : B2 * 65536 + (B1 * 256 + B0) = 65536 * B2 + (B1 * 256 + B0) := by ring
  rw [e, Nat.mul_add_div (by norm_num), Nat.div_eq_of_lt (by omega), Nat.add_zero,
    Nat.mod_eq_of_lt h2]

theorem blend_core (a b : Nat) (ha : a < 2 ^ 24) (hb : b < 2 ^ 24) :
    (a &&& b) + ((a ^^^ b) >>> 1 &&& 0x7f7f7f) =
      ((a / 65536 % 256 + b / 65536 % 256) / 2) * 65536 +
      (((a / 256 % 256 + b / 256 % 256) / 2) * 256 +
        (a % 256 + b % 256) / 2) := by
  obtain ⟨a2, a1, a0, ha0, ha1, ha2, rfl⟩ :
      ∃ x2 x1 x0, x0 < 2 ^ 8 ∧ x1 < 2 ^ 8 ∧ x2 < 2 ^ 8 ∧
        a = x2 * 2 ^ 16 + (x1 * 2 ^ 8 + x0) := by
    exact ⟨a / 2 ^ 16, a / 2 ^ 8 % 2 ^ 8, a % 2 ^ 8, by omega, by omega, by omega, by omega⟩
  obtain ⟨b2, b1, b0, hb0, hb1, hb2, rfl⟩ :
      ∃ x2 x1 x0, x0 < 2 ^ 8 ∧ x1 < 2 ^ 8 ∧ x2 < 2 ^ 8 ∧
        b = x2 * 2 ^ 16 + (x1 * 2 ^ 8 + x0) := by
    exact ⟨b / 2 ^ 16, b / 2 ^ 8 % 2 ^ 8, b % 2 ^ 8, by omega, by omega, by omega, by omega⟩
  clear ha hb
  have hc2 : (a2 * 2 ^ 16 + (a1 * 2 ^ 8 + a0)) / 65536 % 256 = a2 := by omega
  have hd2 : (b2 * 2 ^ 16 + (b1 * 2 ^ 8 + b0)) / 65536 % 256 = b2 := by omega
  have hc1 : (a2 * 2 ^ 16 + (a1 * 2 ^ 8 + a0)) / 256 % 256 = a1 := by omega
  have hd1 : (b2 * 2 ^ 16 + (b1 * 2 ^ 8 + b0)) / 256 % 256 = b1 := by omega
  have hc0 : (a2 * 2 ^ 16 + (a1 * 2 ^ 8 + a0)) % 256 = a0 := by omega
  have hd0 : (b2 * 2 ^ 16 + (b1 * 2 ^ 8 + b0)) % 256 = b0 := by omega
  rw [hc2, hd2, hc1, hd1, hc0, hd0]
  clear hc2 hd2 hc1 hd1 hc0 hd0
  have hla : a1 * 2 ^ 8 + a0 < 2 ^ 16 := by omega
  have hlb : b1 * 2 ^ 8 + b0 < 2 ^ 16 := by omega
  have hland : (a2 * 2 ^ 16 + (a1 * 2 ^ 8 + a0)) &&& (b2 * 2 ^ 16 + (b1 * 2 ^ 8 + b0)) =
      (a2 &&& b2) * 2 ^ 16 + ((a1 &&& b1) * 2 ^ 8 + (a0 &&& b0)) := by
    rw [concat_land 16 _ _ _ _ hla hlb, concat_land 8 _ _ _ _ ha0 hb0]
  have hxor : (a2 * 2 ^ 16 + (a1 * 2 ^ 8 + a0)) ^^^ (b2 * 2 ^ 16 + (b1 * 2 ^ 8 + b0)) =
      (a2 ^^^ b2) * 2 ^ 16 + ((a1 ^^^ b1) * 2 ^ 8 + (a0 ^^^ b0)) := by
    rw [concat_xor 16 _ _ _ _ hla hlb, concat_xor 8 _ _ _ _ ha0 hb0]
  have hx2 : a2 ^^^ b2 < 2 ^ 8 := Nat.xor_lt_two_pow ha2 hb2
  have hx1 : a1 ^^^ b1 < 2 ^ 8 := Nat.xor_lt_two_pow ha1 hb1
  have hx0 : a0 ^^^ b0 < 2 ^ 8 := Nat.xor_lt_two_pow ha0 hb0
  have hshift : ((a2 ^^^ b2) * 2 ^ 16 + ((a1 ^^^ b1) * 2 ^ 8 + (a0 ^^^ b0))) >>> 1 =
      ((a2 ^^^ b2) / 2) * 2 ^ 16 +
        ((((a2 ^^^ b2) % 2) * 128 + (a1 ^^^ b1) / 2) * 2 ^ 8 +
          (((a1 ^^^ b1) % 2) * 128 + (a0 ^^^ b0) / 2)) := by
    rw [Nat.shiftRight_eq_div_pow]
    generalize a2 ^^^ b2 = u2 at hx2 ⊢
    generalize a1 ^^^ b1 = u1 at hx1 ⊢
    generalize a0 ^^^ b0 = u0 at hx0 ⊢
    omega
  have hm1 : ((a2 ^^^ b2) % 2) * 128 + (a1 ^^^ b1) / 2 < 2 ^ 8 := by
    generalize a2 ^^^ b2 = u2 at hx2 ⊢
    generalize a1 ^^^ b1 = u1 at hx1 ⊢
    omega
  have hm0 : ((a1 ^^^ b1) % 2) * 128 + (a0 ^^^ b0) / 2 < 2 ^ 8 := by
    generalize a1 ^^^ b1 = u1 at hx1 ⊢
    generalize a0 ^^^ b0 = u0 at hx0 ⊢
    omega
  have hmlo : (((a2 ^^^ b2) % 2) * 128 + (a1 ^^^ b1) / 2) * 2 ^ 8 +
      (((a1 ^^^ b1) % 2) * 128 + (a0 ^^^ b0) / 2) < 2 ^ 16 := by
    generalize a2 ^^^ b2 = u2 at hx2 ⊢
    generalize a1 ^^^ b1 = u1 at hx1 ⊢
    generalize a0 ^^^ b0 = u0 at hx0 ⊢
    omega
  have hmaskdec : (0x7f7f7f : Nat) = 127 * 2 ^ 16 + (127 * 2 ^ 8 + 127) := by norm_num
  have hmask : (((a2 ^^^ b2) / 2) * 2 ^ 16 +
        ((((a2 ^^^ b2) % 2) * 128 + (a1 ^^^ b1) / 2) * 2 ^ 8 +
          (((a1 ^^^ b1) % 2) * 128 + (a0 ^^^ b0) / 2))) &&& 0x7f7f7f =
      ((a2 ^^^ b2) / 2) * 2 ^ 16 + (((a1 ^^^ b1) / 2) * 2 ^ 8 + (a0 ^^^ b0) / 2) := by
    rw [hmaskdec, concat_land 16 _ _ _ _ hmlo (by norm_num),
      concat_land 8 _ _ _ _ hm0 (by norm_num), nat_and_127, nat_and_127, nat_and_127]
    generalize a2 ^^^ b2 = u2 at hx2 ⊢
    generalize a1 ^^^ b1 = u1 at hx1 ⊢
    generalize a0 ^^^ b0 = u0 at hx0 ⊢
    omega
  rw [hland, hxor, hshift, hmask]
  clear hland hxor hshift hmask hmaskdec hm1 hm0 hmlo hla hlb
  have hB2 := byte_avg a2 b2
  have hB1 := byte_avg a1 b1
  have hB0 := byte_avg a0 b0
  generalize a2 &&& b2 = v2 at hB2 ⊢
  generalize a1 &&& b1 = v1 at hB1 ⊢
  generalize a0 &&& b0 = v0 at hB0 ⊢
  generalize a2 ^^^ b2 = u2 at hB2 hx2 ⊢
  generalize a1 ^^^ b1 = u1 at hB1 hx1 ⊢
  generalize a0 ^^^ b0 = u0 at hB0 hx0 ⊢
  omega

/-- C7: for all 24-bit RGB values `a` and `b`, the interlace blend used by the
DrazLace/FunPaint decoders computes `(a & b) + ((a ^ b) >> 1 & 0x7f7f7f)`, and
this value equals, in each of the three 8-bit channels independently, the
floor of the average `(a_ch + b_ch) / 2`, with no carry crossing channel
boundaries (the result stays below `2 ^ 24` and each channel is exactly the
per-channel average). -/
theorem blend_rgb_channel_average (a b : Nat) (ha : a < 2 ^ 24) (hb : b < 2 ^ 24) :
    c64.blend_rgb a b = (a &&& b) + ((a ^^^ b) >>> 1 &&& 0x7f7f7f) ∧
      c64.blend_rgb a b < 2 ^ 24 ∧
      ∀ i < 3, c64.blend_rgb a b >>> (8 * i) &&& 255 =
        ((a >>> (8 * i) &&& 255) + (b >>> (8 * i) &&& 255)) / 2 := by
  have h2 : (a / 65536 % 256 + b / 65536 % 256) / 2 < 256 := by omega
  have h1 : (a / 256 % 256 + b / 256 % 256) / 2 < 256 := by omega
  have h0 : (a % 256 + b % 256) / 2 < 256 := by omega
  have hcore := blend_core a b ha hb
  have hlt : (a &&& b) + ((a ^^^ b) >>> 1 &&& 0x7f7f7f) < 2 ^ 24 := by
    rw [hcore]; clear hcore ha hb; omega
  have hval : c64.blend_rgb a b = (a &&& b) + ((a ^^^ b) >>> 1 &&& 0x7f7f7f) := by
    show ((a &&& b) + ((a ^^^ b) >>> 1 &&& c64.RGB_BLEND_MASK)) % 2 ^ 32 = _
    show ((a &&& b) + ((a ^^^ b) >>> 1 &&& 0x7f7f7f)) % 2 ^ 32 = _
    exact Nat.mod_eq_of_lt (lt_trans hlt (by norm_num))
  refine ⟨hval, by rw [hval]; exact hlt, ?_⟩
  intro i hi
  rw [hval, hcore]
  clear hval hcore hlt ha hb
  interval_cases i
  · rw [Nat.shiftRight_eq_div_pow, Nat.shiftRight_eq_div_pow, Nat.shiftRight_eq_div_pow,
      nat_and_255, nat_and_255, nat_and_255]
    simp only [show (2 : Nat) ^ (8 * 0) = 1 from rfl, Nat.div_one]
    rw [bytes3_mod256 _ _ _ h0]
  · rw [Nat.shiftRight_eq_div_pow, Nat.shiftRight_eq_div_pow, Nat.shiftRight_eq_div_pow,
      nat_and_255, nat_and_255, nat_and_255]
    simp only [show (2 : Nat) ^ (8 * 1) = 256 from rfl]
    rw [bytes3_div256_mod _ _ _ h1 h0]
  · rw [Nat.shiftRight_eq_div_pow, Nat.shiftRight_eq_div_pow, Nat.shiftRight_eq_div_pow,
      nat_and_255, nat_and_255, nat_and_255]
    simp only [show (2 : Nat) ^ (8 * 2) = 65536 from rfl]
    rw [bytes3_div65536_mod _ _ _ h2 h1 h0]

theorem koala_finish_dims (src : List Nat) (bOff sOff cOff bgOff : Nat)
    (options : decode_options) (surf : memory_surface)
    (havail : bgOff + 1 ≤ src.length)
    (hcond : (320 : Int) > (if options.max_width > 0 then options.max_width else 16384) ∨
      (200 : Int) > (if options.max_height > 0 then options.max_height else 16384)) :
    koala_finish src bOff sOff cOff bgOff options surf =
      (.failure .dimensions_exceeded, surf) := by
  unfold koala_finish
  rw [if_neg (by omega), if_pos hcond]

/-- C2 (amended): for the koala, drazlace and qoi decoders, calling decode on
a recognised input with `options.max_width` or `options.max_height` positive
and smaller than the image's (fixed or declared) width or height returns a
failure with error kind `dimensions_exceeded` and leaves the surface
untouched (in particular, `set_size` for the full image is never called);
the ico decoder instead drops directory entries that exceed the limits and
returns `invalid_format` when no entry survives; non-positive limits select
the built-in default instead of failing. -/
theorem dimension_limits_enforced :
    (∀ (data : List Nat) (options : decode_options) (surf : memory_surface),
        (data.length = KOALA_SIZE_WITHOUT_ADDR ∨ data.length = KOALA_SIZE_WITH_ADDR ∨
          data.length = 10006 ∨ data.length = KOALA_SIZE_OCP) →
        ((0 < options.max_width ∧ options.max_width < 320) ∨
          (0 < options.max_height ∧ options.max_height < 200)) →
        koala_decode data options surf = (.failure .dimensions_exceeded, surf)) ∧
    (∀ (data : List Nat) (options : decode_options) (surf : memory_surface),
        data.length = DRAZLACE_UNPACKED_SIZE → has_drazlace_signature data = false →
        byteAt data 0x2744 ≤ 1 →
        ((0 < options.max_width ∧ options.max_width < 320) ∨
          (0 < options.max_height ∧ options.max_height < 200)) →
        drazlace_decode data options surf = (.failure .dimensions_exceeded, surf)) ∧
    (∀ (data : List Nat) (options : decode_options) (surf : memory_surface),
        QOI_HEADER_SIZE + QOI_END_MARKER_SIZE ≤ data.length →
        read_be32 data 0 = QOI_MAGIC →
        read_be32 data 4 ≠ 0 → read_be32 data 8 ≠ 0 →
        (byteAt data 12 = 3 ∨ byteAt data 12 = 4) →
        ((0 < options.max_width ∧ options.max_width < toInt32 (read_be32 data 4)) ∨
          (0 < options.max_height ∧ options.max_height < toInt32 (read_be32 data 8))) →
        qoi_decode data options surf = (.failure .dimensions_exceeded, surf)) ∧
    (∀ (dec : List Nat → Int → Int → Option decoded_icon) (data : List Nat)
        (options : decode_options) (surf : memory_surface) (r t count : Nat),
        parse_ico_header data = some (r, t, count) → count ≠ 0 →
        ico_collect_entries data
          (if options.max_width > 0 then options.max_width else 256)
          (if options.max_height > 0 then options.max_height else 256) count 6 = [] →
        ico_decode dec data options surf = (.failure .invalid_format, surf)) := by
  refine ⟨?_, ?_, ?_, ?_⟩
  · intro data options surf hsize hdims
    have hge : KOALA_SIZE_WITHOUT_ADDR ≤ data.length := by
      unfold KOALA_SIZE_WITHOUT_ADDR KOALA_SIZE_WITH_ADDR KOALA_SIZE_OCP at *
      omega
    have hne : data ≠ [] := by
      intro he; rw [he] at hge; simp [KOALA_SIZE_WITHOUT_ADDR] at hge
    have hcond : (320 : Int) > (if options.max_width > 0 then options.max_width
        else 16384) ∨
        (200 : Int) > (if options.max_height > 0 then options.max_height else 16384) := by
      rcases hdims with ⟨hpos, hlt⟩ | ⟨hpos, hlt⟩
      · left; rw [if_pos hpos]; exact hlt
      · right; rw [if_pos hpos]; exact hlt
    unfold koala_decode
    rw [if_neg hne, is_gg_koala_false_of_large data hge]
    simp only [Bool.false_eq_true, if_false]
    unfold KOALA_SIZE_WITHOUT_ADDR KOALA_SIZE_WITH_ADDR KOALA_SIZE_OCP at hsize ⊢
    rcases hsize with h | h | h | h
    · rw [if_pos h]
      exact koala_finish_dims _ _ _ _ _ _ _ (by omega) hcond
    · rw [if_neg (by omega), if_pos (Or.inl h)]
      exact koala_finish_dims _ _ _ _ _ _ _ (by omega) hcond
    · rw [if_neg (by omega), if_pos (Or.inr h)]
      exact koala_finish_dims _ _ _ _ _ _ _ (by omega) hcond
    · rw [if_neg (by omega), if_neg (by omega), if_pos h]
      exact koala_finish_dims _ _ _ _ _ _ _ (by omega) hcond
  · intro data options surf hsize hsig hshift hdims
    have hne : data ≠ [] := by
      intro he; rw [he] at hsize; simp [DRAZLACE_UNPACKED_SIZE] at hsize
    have hcond : (320 : Int) > (if options.max_width > 0 then options.max_width
        else 16384) ∨
        (200 : Int) > (if options.max_height > 0 then options.max_height else 16384) := by
      rcases hdims with ⟨hpos, hlt⟩ | ⟨hpos, hlt⟩
      · left; rw [if_pos hpos]; exact hlt
      · right; rw [if_pos hpos]; exact hlt
    unfold drazlace_decode
    rw [if_neg hne, hsig]
    simp only [Bool.false_eq_true, if_false]
    rw [if_pos hsize]
    unfold drazlace_finish
    rw [if_neg (by omega), if_pos hcond]
  · intro data options surf hlen hmagic hw0 hh0 hch hdims
    have hcond : toInt32 (read_be32 data 4) >
        (if options.max_width > 0 then options.max_width else DEFAULT_MAX_DIMENSION) ∨
        toInt32 (read_be32 data 8) >
          (if options.max_height > 0 then options.max_height
            else DEFAULT_MAX_DIMENSION) := by
      rcases hdims with ⟨hpos, hlt⟩ | ⟨hpos, hlt⟩
      · left; rw [if_pos hpos]; exact hlt
      · right; rw [if_pos hpos]; exact hlt
    have hv : validate_dimensions (toInt32 (read_be32 data 4))
        (toInt32 (read_be32 data 8)) options DEFAULT_MAX_DIMENSION =
        .failure .dimensions_exceeded := by
      unfold validate_dimensions get_dimension_limits
      rw [if_pos hcond]
    unfold qoi_decode
    rw [if_neg (by omega), if_neg (by simp [hmagic]), if_neg (by simp [hw0, hh0]),
      if_neg (by rcases hch with h | h <;> simp [h]), hv]
    rfl
  · intro dec data options surf r t count hhdr hc hempty
    unfold ico_decode
    rw [hhdr]
    simp only
    rw [if_neg hc, hempty]
    rfl

/-- C2 counterexample: the ico decoder, given a well-formed ICO whose single
directory entry declares a 4x4 icon and limits of 2x2 (positive and smaller
than the true dimensions), returns `invalid_format`, not
`dimensions_exceeded` as the claim states. -/
theorem dimension_limits_counterexample :
    (ico_decode (fun _ _ _ => none) ico_4x4_example small_limit_options {}).1 =
        decode_result.failure .invalid_format ∧
      (ico_decode (fun _ _ _ => none) ico_4x4_example small_limit_options {}).1.error ≠
        decode_error.dimensions_exceeded := by
  decide

theorem dimension_limits_enforced_witness :
    koala_decode (List.replicate 10003 0) { max_width := 100 } {} =
      (.failure .dimensions_exceeded, ({} : memory_surface)) :=
  dimension_limits_enforced.1 (List.replicate 10003 0) { max_width := 100 } {}
    (Or.inr (Or.inl (by rw [List.length_replicate]; rfl)))
    (Or.inl (by constructor <;> decide))

theorem flatMap_range_length (n L : Nat) (f : Nat → List Nat)
    (hL : ∀ i, (f i).length = L) : ((List.range n).flatMap f).length = n * L := by
  induction n with
  | zero => simp
  | succ n ih =>
    rw [List.range_succ, List.flatMap_append]
    simp only [List.length_append, ih, List.flatMap_cons, List.flatMap_nil,
      List.append_nil, hL]
    ring

theorem flatMap_range_getD (n L : Nat) (f : Nat → List Nat)
    (hL : ∀ i, (f i).length = L) (q r : Nat) (hq : q < n) (hr : r < L) :
    ((List.range n).flatMap f).getD (q * L + r) 0 = (f q).getD r 0 := by
  induction n with
  | zero => omega
  | succ n ih =>
    rw [List.range_succ, List.flatMap_append]
    rcases Nat.lt_or_ge q n with hqn | hqn
    · rw [List.getD_append]
      · exact ih hqn
      · rw [flatMap_range_length n L f hL]
        have h1 : q.succ * L ≤ n * L := Nat.mul_le_mul_right L hqn
        have h2 : q.succ * L = q * L + L := Nat.succ_mul q L
        omega
    · have hqe : q = n := by omega
      subst hqe
      rw [List.getD_append_right]
      · rw [flatMap_range_length q L f hL]
        simp only [List.flatMap_cons, List.flatMap_nil, List.append_nil]
        congr 1
        omega
      · rw [flatMap_range_length q L f hL]
        omega

theorem byteAt_drop (l : List Nat) (k i : Nat) :
    byteAt (l.drop k) i = byteAt l (k + i) := by
  simp [byteAt, List.getD_eq_getElem?_getD, List.getElem?_drop]

theorem multicolor_color_index_drop (u : List Nat) (k b s c bg x y : Nat) :
    c64.multicolor_color_index (u.drop k) b s c bg x y =
      c64.multicolor_color_index u (k + b) (k + s) (k + c) bg x y := by
  unfold c64.multicolor_color_index
  simp only [byteAt_drop, Nat.add_assoc]

theorem decode_multicolor_drop (u : List Nat) (k b s c bg : Nat)
    (surf : memory_surface) :
    c64.decode_multicolor (u.drop k) b s c bg surf =
      c64.decode_multicolor u (k + b) (k + s) (k + c) bg surf := by
  unfold c64.decode_multicolor
  apply List.foldl_ext
  intro acc y hy
  apply List.foldl_ext
  intro acc2 x hx
  rw [multicolor_color_index_drop]

theorem write_pixels_shape (s : memory_surface) (x y c : Int) (p : List Nat) :
    (s.write_pixels x y c p).width = s.width ∧
      (s.write_pixels x y c p).height = s.height ∧
      (s.write_pixels x y c p).format = s.format ∧
      (s.write_pixels x y c p).pitch = s.pitch ∧
      (s.write_pixels x y c p).subrects = s.subrects ∧
      (s.write_pixels x y c p).palette = s.palette := by
  simp only [memory_surface.write_pixels]
  split
  · exact ⟨rfl, rfl, rfl, rfl, rfl, rfl⟩
  · split
    · exact ⟨rfl, rfl, rfl, rfl, rfl, rfl⟩
    · split
      · exact ⟨rfl, rfl, rfl, rfl, rfl, rfl⟩
      · exact ⟨rfl, rfl, rfl, rfl, rfl, rfl⟩

theorem foldl_shape {α : Type} (f : memory_surface → α → memory_surface)
    (hf : ∀ s a, (f s a).width = s.width ∧ (f s a).height = s.height ∧
      (f s a).format = s.format)
    (l : List α) (s : memory_surface) :
    (l.foldl f s).width = s.width ∧ (l.foldl f s).height = s.height ∧
      (l.foldl f s).format = s.format := by
  induction l generalizing s with
  | nil => exact ⟨rfl, rfl, rfl⟩
  | cons a t ih =>
    simp only [List.foldl_cons]
    obtain ⟨h1, h2, h3⟩ := ih (f s a)
    obtain ⟨g1, g2, g3⟩ := hf s a
    exact ⟨h1.trans g1, h2.trans g2, h3.trans g3⟩

theorem decode_multicolor_shape (src : List Nat) (bOff sOff cOff bg : Nat)
    (s : memory_surface) :
    (c64.decode_multicolor src bOff sOff cOff bg s).width = s.width ∧
      (c64.decode_multicolor src bOff sOff cOff bg s).height = s.height ∧
      (c64.decode_multicolor src bOff sOff cOff bg s).format = s.format := by
  unfold c64.decode_multicolor
  apply foldl_shape
  intro s' y
  apply foldl_shape
  intro s'' x
  obtain ⟨h1, h2, h3, _, _, _⟩ := write_pixels_shape s'' _ _ _ _
  exact ⟨h1, h2, h3⟩

theorem set_size_success (s : memory_surface) (w h : Int) (fmt : pixel_format)
    (hw : 0 < w) (hh : 0 < h)
    (hbuf : w.toNat * bytes_per_pixel fmt * h.toNat ≤ MAX_BUFFER_SIZE) :
    s.set_size w h fmt = (true,
      ⟨List.replicate (w.toNat * bytes_per_pixel fmt * h.toNat) 0, [], [],
       w, h, w.toNat * bytes_per_pixel fmt, fmt⟩) := by
  have hbpp : 0 < bytes_per_pixel fmt := by cases fmt <;> decide
  have hwpos : 0 < w.toNat := by omega
  have hhpos : 0 < h.toNat := by omega
  have hMS : MAX_BUFFER_SIZE ≤ SIZE_MAX := by decide
  unfold memory_surface.set_size
  rw [if_neg (by omega)]
  rw [if_neg (by
    rw [not_lt, Nat.le_div_iff_mul_le hbpp]
    calc w.toNat * bytes_per_pixel fmt ≤
        w.toNat * bytes_per_pixel fmt * h.toNat := Nat.le_mul_of_pos_right _ hhpos
      _ ≤ MAX_BUFFER_SIZE := hbuf
      _ ≤ SIZE_MAX := hMS)]
  rw [if_neg (by
    rw [not_lt, Nat.le_div_iff_mul_le hhpos]
    calc w.toNat * bytes_per_pixel fmt * h.toNat ≤ MAX_BUFFER_SIZE := hbuf
      _ ≤ SIZE_MAX := hMS)]
  rw [if_neg (by omega)]

/-- C1: for every GG-compressed Koala input whose decompressed payload equals
the payload (the bytes after any load address) of an uncompressed Koala
input, `koala_decoder::decode` applied to the compressed and to the
uncompressed input yields identical results: the same surface (in
particular byte-identical pixel buffers), with dimensions 320x200 and pixel
format rgb888. -/
theorem koala_gg_refinement (c u payload : List Nat) (options : decode_options)
    (surf : memory_surface)
    (hgg : is_gg_koala c = true)
    (hdec : decompress_gg c 2 KOALA_SIZE_WITHOUT_ADDR = some payload)
    (hu : is_uncompressed_koala u = true)
    (hpay : payload = if u.length = KOALA_SIZE_WITHOUT_ADDR then u else u.drop 2)
    (hw : (320 : Int) ≤ (if options.max_width > 0 then options.max_width else 16384))
    (hh : (200 : Int) ≤ (if options.max_height > 0 then options.max_height else 16384)) :
    koala_decode c options surf = koala_decode u options surf ∧
      (koala_decode c options surf).1 = .success ∧
      (koala_decode c options surf).2.width = 320 ∧
      (koala_decode c options surf).2.height = 200 ∧
      (koala_decode c options surf).2.format = .rgb888 := by
  have hplen : payload.length = KOALA_SIZE_WITHOUT_ADDR := by
    unfold decompress_gg at hdec
    split at hdec
    · exact absurd hdec (by simp)
    · exact ggLoop_some_length _ _ _ _ hdec
  have hclen := is_gg_koala_length c hgg
  have hcne : c ≠ [] := by
    intro he; rw [he] at hclen; exact absurd hclen.1 (by simp)
  have hss := set_size_success surf 320 200 .rgb888 (by norm_num) (by norm_num)
    (by decide)
  have hkf : ∀ (src : List Nat) (bOff sOff cOff bgOff : Nat),
      bgOff + 1 ≤ src.length →
      koala_finish src bOff sOff cOff bgOff options surf =
        (.success, c64.decode_multicolor src bOff sOff cOff (byteAt src bgOff)
          ⟨List.replicate ((320 : Int).toNat * bytes_per_pixel .rgb888 *
            (200 : Int).toNat) 0, [], [], 320, 200,
           (320 : Int).toNat * bytes_per_pixel .rgb888, .rgb888⟩) := by
    intro src bOff sOff cOff bgOff havail
    unfold koala_finish
    rw [if_neg (by omega), if_neg (by push_neg; exact ⟨by omega, by omega⟩), hss]
  have hdc : koala_decode c options surf =
      koala_finish payload 0 8000 9000 10000 options surf := by
    unfold koala_decode
    rw [if_neg hcne, hgg]
    simp only [if_true, hdec]
  have hus : u.length = 10001 ∨ u.length = 10003 ∨ u.length = 10006 ∨
      u.length = 10018 := by
    unfold is_uncompressed_koala KOALA_SIZE_WITHOUT_ADDR KOALA_SIZE_WITH_ADDR
      KOALA_SIZE_OCP at hu
    simp only [Bool.or_eq_true, beq_iff_eq] at hu
    tauto
  have hune : u ≠ [] := by
    intro he; rw [he] at hus; simp at hus
  have huge : KOALA_SIZE_WITHOUT_ADDR ≤ u.length := by
    unfold KOALA_SIZE_WITHOUT_ADDR; omega
  have hmain : koala_decode c options surf = koala_decode u options surf ∧
      koala_decode c options surf =
        (.success, c64.decode_multicolor payload 0 8000 9000 (byteAt payload 10000)
          ⟨List.replicate ((320 : Int).toNat * bytes_per_pixel .rgb888 *
            (200 : Int).toNat) 0, [], [], 320, 200,
           (320 : Int).toNat * bytes_per_pixel .rgb888, .rgb888⟩) := by
    have hdu0 : koala_decode u options surf =
        (if u.length = KOALA_SIZE_WITHOUT_ADDR then
          koala_finish u 0 8000 9000 10000 options surf
        else if u.length = KOALA_SIZE_WITH_ADDR ∨ u.length = 10006 then
          koala_finish u 2 (2 + 8000) (2 + 9000) (2 + 10000) options surf
        else if u.length = KOALA_SIZE_OCP then
          koala_finish u 2 (2 + 8000) (2 + 8000 + 8 + 1000)
            (2 + 8000 + 8 + 1000 - 1) options surf
        else (.failure .invalid_format, surf)) := by
      unfold koala_decode
      rw [if_neg hune, is_gg_koala_false_of_large u huge]
      simp only [Bool.false_eq_true, if_false]
    unfold KOALA_SIZE_WITHOUT_ADDR KOALA_SIZE_WITH_ADDR KOALA_SIZE_OCP at hdu0
    unfold KOALA_SIZE_WITHOUT_ADDR at hplen hpay
    rcases hus with hl | hl | hl | hl
    · rw [if_pos hl] at hpay
      subst hpay
      rw [hdc, hdu0, if_pos hl, hkf payload 0 8000 9000 10000 (by omega)]
      exact ⟨rfl, rfl⟩
    · rw [if_neg (by omega)] at hpay
      rw [hdc, hdu0, if_neg (by omega), if_pos (Or.inl hl),
        hkf payload 0 8000 9000 10000 (by omega),
        hkf u 2 (2 + 8000) (2 + 9000) (2 + 10000) (by omega)]
      have hdm : c64.decode_multicolor payload 0 8000 9000
          (byteAt payload 10000) = c64.decode_multicolor u 2 (2 + 8000) (2 + 9000)
          (byteAt u (2 + 10000)) := by
        rw [hpay, byteAt_drop]
        funext s0
        have := decode_multicolor_drop u 2 0 8000 9000 (byteAt u (2 + 10000)) s0
        simpa using this
      rw [hdm]
      exact ⟨rfl, by rw [← hdm, hpay, byteAt_drop]⟩
    · rw [if_neg (by omega)] at hpay
      have : payload.length = 10004 := by
        rw [hpay, List.length_drop]; omega
      omega
    · rw [if_neg (by omega)] at hpay
      have : payload.length = 10016 := by
        rw [hpay, List.length_drop]; omega
      omega
  obtain ⟨heq, hval⟩ := hmain
  have hshape := decode_multicolor_shape payload 0 8000 9000 (byteAt payload 10000)
    ⟨List.replicate ((320 : Int).toNat * bytes_per_pixel .rgb888 *
      (200 : Int).toNat) 0, [], [], 320, 200,
     (320 : Int).toNat * bytes_per_pixel .rgb888, .rgb888⟩
  refine ⟨heq, ?_, ?_, ?_, ?_⟩
  · rw [hval]
  · rw [hval]; exact hshape.1
  · rw [hval]; exact hshape.2.1
  · rw [hval]; exact hshape.2.2

theorem ggLoop_lit (sz b : Nat) (rest acc : List Nat) (hb : b ≠ GG_RLE_ESCAPE)
    (h : acc.length < sz) :
    ggLoop sz (b :: rest) acc = ggLoop sz rest (acc ++ [b]) := by
  rcases rest with _ | ⟨a, _ | ⟨a2, t⟩⟩ <;>
    (simp only [ggLoop]; rw [if_pos h, if_neg hb])

theorem ggLoop_done (sz : Nat) (acc : List Nat) (h : acc.length = sz) :
    ggLoop sz [] acc = some acc := by
  rw [ggLoop, if_pos h]

theorem ggLoop_runs (sz v cnt k : Nat) (rest acc : List Nat) (hcnt : 1 ≤ cnt)
    (hlen : acc.length + k * cnt ≤ sz) :
    ggLoop sz ((List.replicate k [GG_RLE_ESCAPE, v, cnt]).flatten ++ rest) acc =
      ggLoop sz rest (acc ++ List.replicate (k * cnt) v) := by
  induction k generalizing acc with
  | zero => simp
  | succ k ih =>
    have hsm : (k + 1) * cnt = k * cnt + cnt := Nat.succ_mul k cnt
    rw [hsm] at hlen
    have hstep : ggLoop sz
        (GG_RLE_ESCAPE :: v :: cnt ::
          ((List.replicate k [GG_RLE_ESCAPE, v, cnt]).flatten ++ rest)) acc =
        ggLoop sz ((List.replicate k [GG_RLE_ESCAPE, v, cnt]).flatten ++ rest)
          (acc ++ List.replicate cnt v) := by
      rw [ggLoop, if_pos (by omega), if_pos rfl]
      have hmin : min cnt (sz - acc.length) = cnt := by omega
      rw [hmin]
    rw [List.replicate_succ, List.flatten_cons]
    simp only [List.cons_append, List.nil_append]
    rw [hstep, ih (acc ++ List.replicate cnt v)
      (by simp only [List.length_append, List.length_replicate]; omega)]
    rw [List.append_assoc, ← List.replicate_add]
    have hadd : cnt + k * cnt = (k + 1) * cnt := by omega
    rw [hadd]

theorem koala_gg_refinement_witness :
    koala_decode gg_compressed_example {} {} =
        koala_decode gg_uncompressed_example {} {} ∧
      (koala_decode gg_compressed_example {} {}).1 = .success ∧
      (koala_decode gg_compressed_example {} {}).2.width = 320 ∧
      (koala_decode gg_compressed_example {} {}).2.height = 200 ∧
      (koala_decode gg_compressed_example {} {}).2.format = .rgb888 := by
  have hplen : gg_payload_example.length = 10001 := by
    unfold gg_payload_example
    rw [List.length_append, List.length_replicate]
    rfl
  have hulen : gg_uncompressed_example.length = 10003 := by
    unfold gg_uncompressed_example
    rw [List.length_cons, List.length_cons, hplen]
  have hclen : gg_compressed_example.length = 123 := by
    unfold gg_compressed_example
    rw [List.length_cons, List.length_cons, List.length_append]
    rfl
  have hm : (40 : Nat) * 0xFA = 10000 := by norm_num
  have hdec : decompress_gg gg_compressed_example 2 KOALA_SIZE_WITHOUT_ADDR =
      some gg_payload_example := by
    unfold decompress_gg
    rw [if_neg (by rw [hclen]; decide)]
    have hdrop : gg_compressed_example.drop 2 =
        (List.replicate 40 [GG_RLE_ESCAPE, 0xAA, 0xFA]).flatten ++ [0x07] := rfl
    rw [hdrop, ggLoop_runs _ 0xAA 0xFA 40 [0x07] [] (by decide)
      (by rw [List.length_nil, hm]; decide)]
    rw [List.nil_append]
    rw [ggLoop_lit _ 0x07 [] (List.replicate (40 * 0xFA) 0xAA) (by decide)
      (by rw [List.length_replicate, hm]; decide)]
    rw [ggLoop_done _ _
      (by rw [List.length_append, List.length_replicate, hm]; rfl)]
    rw [hm]
    rfl
  exact koala_gg_refinement gg_compressed_example gg_uncompressed_example
    gg_payload_example {} {} (by decide) hdec
    (by unfold is_uncompressed_koala; rw [hulen]; decide)
    (by rw [if_neg (by rw [hulen]; decide)]; rfl) (by decide) (by decide)

/-- C9: the PNG encoder builds an RGBA8888 buffer in which an rgba8888
surface is copied verbatim, an rgb888 surface keeps each pixel's RGB bytes
and gains alpha 255, and an indexed8 surface maps each index through the
palette with alpha 255, any index without a complete palette entry becoming
opaque black; on any failure (non-positive dimensions, or the external PNG
writer failing) the encoder returns an empty byte vector. -/
theorem encode_png_spec :
    (∀ (lode : List Nat → Nat → Nat → Option (List Nat)) (surf : memory_surface),
        surf.width ≤ 0 ∨ surf.height ≤ 0 → encode_png lode surf = []) ∧
    (∀ (lode : List Nat → Nat → Nat → Option (List Nat)) (surf : memory_surface),
        lode (build_rgba surf) surf.width.toNat surf.height.toNat = none →
        encode_png lode surf = []) ∧
    (∀ surf : memory_surface, surf.format = .rgba8888 →
        build_rgba surf = surf.pixels) ∧
    (∀ surf : memory_surface, surf.format = .rgb888 →
        (build_rgba surf).length = surf.width.toNat * surf.height.toNat * 4 ∧
        ∀ i < surf.width.toNat * surf.height.toNat,
          (build_rgba surf).getD (i * 4) 0 = byteAt surf.pixels (i * 3) ∧
          (build_rgba surf).getD (i * 4 + 1) 0 = byteAt surf.pixels (i * 3 + 1) ∧
          (build_rgba surf).getD (i * 4 + 2) 0 = byteAt surf.pixels (i * 3 + 2) ∧
          (build_rgba surf).getD (i * 4 + 3) 0 = 255) ∧
    (∀ surf : memory_surface, surf.format = .indexed8 →
        (build_rgba surf).length = surf.width.toNat * surf.height.toNat * 4 ∧
        ∀ i < surf.width.toNat * surf.height.toNat,
          (byteAt surf.pixels i * 3 + 2 < surf.palette.length →
            (build_rgba surf).getD (i * 4) 0 =
              byteAt surf.palette (byteAt surf.pixels i * 3) ∧
            (build_rgba surf).getD (i * 4 + 1) 0 =
              byteAt surf.palette (byteAt surf.pixels i * 3 + 1) ∧
            (build_rgba surf).getD (i * 4 + 2) 0 =
              byteAt surf.palette (byteAt surf.pixels i * 3 + 2) ∧
            (build_rgba surf).getD (i * 4 + 3) 0 = 255) ∧
          (surf.palette.length ≤ byteAt surf.pixels i * 3 + 2 →
            (build_rgba surf).getD (i * 4) 0 = 0 ∧
            (build_rgba surf).getD (i * 4 + 1) 0 = 0 ∧
            (build_rgba surf).getD (i * 4 + 2) 0 = 0 ∧
            (build_rgba surf).getD (i * 4 + 3) 0 = 255)) := by
  refine ⟨?_, ?_, ?_, ?_, ?_⟩
  · intro lode surf h
    unfold encode_png
    rw [if_pos h]
  · intro lode surf h
    unfold encode_png
    split
    · rfl
    · rw [h]
  · intro surf h
    unfold build_rgba
    rw [h]
  · intro surf h
    unfold build_rgba
    rw [h]
    have hL : ∀ i, ([byteAt surf.pixels (i * 3), byteAt surf.pixels (i * 3 + 1),
        byteAt surf.pixels (i * 3 + 2), 255] : List Nat).length = 4 := fun i => rfl
    refine ⟨flatMap_range_length _ 4 _ hL, ?_⟩
    intro i hi
    have h0 := flatMap_range_getD _ 4 _ hL i 0 hi (by norm_num)
    have h1 := flatMap_range_getD _ 4 _ hL i 1 hi (by norm_num)
    have h2 := flatMap_range_getD _ 4 _ hL i 2 hi (by norm_num)
    have h3 := flatMap_range_getD _ 4 _ hL i 3 hi (by norm_num)
    rw [Nat.add_zero] at h0
    exact ⟨h0, h1, h2, h3⟩
  · intro surf h
    unfold build_rgba
    rw [h]
    have hL : ∀ i, (if byteAt surf.pixels i * 3 + 2 < surf.palette.length then
        [byteAt surf.palette (byteAt surf.pixels i * 3),
         byteAt surf.palette (byteAt surf.pixels i * 3 + 1),
         byteAt surf.palette (byteAt surf.pixels i * 3 + 2), 255]
      else ([0, 0, 0, 255] : List Nat)).length = 4 := by
      intro i; split <;> rfl
    refine ⟨flatMap_range_length _ 4 _ hL, ?_⟩
    intro i hi
    have h0 := flatMap_range_getD _ 4 _ hL i 0 hi (by norm_num)
    have h1 := flatMap_range_getD _ 4 _ hL i 1 hi (by norm_num)
    have h2 := flatMap_range_getD _ 4 _ hL i 2 hi (by norm_num)
    have h3 := flatMap_range_getD _ 4 _ hL i 3 hi (by norm_num)
    rw [Nat.add_zero] at h0
    constructor
    · intro hpal
      rw [h0, h1, h2, h3]
      rw [if_pos hpal]
      exact ⟨rfl, rfl, rfl, rfl⟩
    · intro hpal
      rw [h0, h1, h2, h3]
      rw [if_neg (by omega)]
      exact ⟨rfl, rfl, rfl, rfl⟩

theorem encode_png_spec_witness :
    ((build_rgba png_indexed_example).getD 0 0 = 10 ∧
        (build_rgba png_indexed_example).getD 4 0 = 0 ∧
        (build_rgba png_indexed_example).getD 7 0 = 255) ∧
      encode_png (fun _ _ _ => none) png_indexed_example = [] := by
  constructor
  · have h := encode_png_spec.2.2.2.2 png_indexed_example rfl
    have h0 := (h.2 0 (by decide)).1 (by decide)
    have h1 := (h.2 1 (by decide)).2 (by decide)
    exact ⟨by simpa using h0.1, by simpa using h1.1, by simpa using h1.2.2.2⟩
  · exact encode_png_spec.2.1 (fun _ _ _ => none) png_indexed_example rfl

theorem blend_rgb_channel_average_witness :
    c64.blend_rgb 0x123456 0xFEDCBA = (0x123456 &&& 0xFEDCBA) +
        ((0x123456 ^^^ 0xFEDCBA) >>> 1 &&& 0x7f7f7f) ∧
      c64.blend_rgb 0x123456 0xFEDCBA < 2 ^ 24 ∧
      ∀ i < 3, c64.blend_rgb 0x123456 0xFEDCBA >>> (8 * i) &&& 255 =
        ((0x123456 >>> (8 * i) &&& 255) + (0xFEDCBA >>> (8 * i) &&& 255)) / 2 :=
  blend_rgb_channel_average 0x123456 0xFEDCBA (by decide) (by decide)

theorem byteAtC_eq (l : List Nat) (i : Nat) (h : i < l.length) :
    byteAtC l i = some (byteAt l i) := by
  simp [byteAtC, byteAt, List.getD_eq_getElem?_getD, List.getElem?_eq_getElem h]

theorem read_be32C_eq (l : List Nat) (off : Nat) (h : off + 3 < l.length) :
    read_be32C l off = some (read_be32 l off) := by
  unfold read_be32C read_be32
  rw [byteAtC_eq _ _ (by omega), byteAtC_eq _ _ (by omega), byteAtC_eq _ _ (by omega),
    byteAtC_eq _ _ (by omega)]
  rfl

theorem qoi_step_pos (data : List Nat) (srcEnd : Nat) (st st' : qoi_state)
    (h : qoi_step data srcEnd st = .ok st') (hpos : st.pos < srcEnd) :
    st'.pos ≤ srcEnd := by
  simp only [qoi_step] at h
  split_ifs at h <;> (injection h with h'; subst h'; dsimp only; omega)

theorem qoi_stepC_eq (data : List Nat) (srcEnd : Nat) (st : qoi_state)
    (hpos : st.pos < srcEnd) (hend : srcEnd < data.length) :
    qoi_stepC data srcEnd st = some (qoi_step data srcEnd st) := by
  have h0 : st.pos < data.length := by omega
  simp only [qoi_stepC, qoi_step]
  rw [byteAtC_eq data st.pos h0]
  simp only [Option.bind_eq_bind, Option.some_bind]
  split_ifs <;>
    first
      | rfl
      | (rw [byteAtC_eq data (st.pos + 1) (by omega)]
         simp only [Option.some_bind]
         rfl)
      | (rw [byteAtC_eq data (st.pos + 1) (by omega)]
         simp only [Option.some_bind]
         rw [byteAtC_eq data (st.pos + 1 + 1) (by omega)]
         simp only [Option.some_bind]
         rw [byteAtC_eq data (st.pos + 1 + 2) (by omega)]
         simp only [Option.some_bind]
         rfl)
      | (rw [byteAtC_eq data (st.pos + 1) (by omega)]
         simp only [Option.some_bind]
         rw [byteAtC_eq data (st.pos + 1 + 1) (by omega)]
         simp only [Option.some_bind]
         rw [byteAtC_eq data (st.pos + 1 + 2) (by omega)]
         simp only [Option.some_bind]
         rw [byteAtC_eq data (st.pos + 1 + 3) (by omega)]
         simp only [Option.some_bind]
         rfl)

theorem qoiLoopC_eq (data : List Nat) (srcEnd channels : Nat)
    (hend : srcEnd < data.length) :
    ∀ (n : Nat) (st : qoi_state), st.pos ≤ srcEnd →
      qoiLoopC data srcEnd channels n st =
        some (qoiLoop data srcEnd channels n st) := by
  intro n
  induction n with
  | zero => intro st _; rfl
  | succ n ih =>
    intro st hpos
    simp only [qoiLoopC, qoiLoop]
    split_ifs with h1 h2
    · exact ih _ (by simpa [qoi_emit] using hpos)
    · rw [qoi_stepC_eq data srcEnd st h2 hend]
      cases hstep : qoi_step data srcEnd st with
      | error e => rfl
      | ok st' =>
        exact ih _ (by
          simpa [qoi_emit, qoi_update_index] using
            qoi_step_pos data srcEnd st st' hstep h2)
    · exact ih _ (by simpa [qoi_emit] using hpos)

/-- C3 (amended): for the QOI decoder (the decoder the claim cites), decoding
arbitrary bytes — in particular any truncation of a valid file — never reads
outside the input buffer: the fully bounds-checked instrumentation of the
decoder never fails and agrees with the decoder on every input, so every
input yields a defined result with a defined error kind.  (A truncation that
removes whole chunks but keeps the 22-byte minimum decodes *successfully*,
contrary to the original claim: see the counterexample.) -/
theorem qoi_never_reads_out_of_bounds :
    ∀ (data : List Nat) (options : decode_options) (surf : memory_surface),
      qoi_decodeC data options surf = some (qoi_decode data options surf) := by
  intro data options surf
  simp only [qoi_decodeC, qoi_decode]
  rcases Nat.lt_or_ge data.length (QOI_HEADER_SIZE + QOI_END_MARKER_SIZE) with hlen | hlen
  · rw [if_pos hlen, if_pos hlen]; rfl
  · have hlen' : 22 ≤ data.length := by
      simp only [QOI_HEADER_SIZE, QOI_END_MARKER_SIZE] at hlen; omega
    rw [if_neg (by omega), if_neg (by omega)]
    rw [read_be32C_eq data 0 (by omega)]
    simp only [Option.bind_eq_bind, Option.some_bind]
    rw [read_be32C_eq data 4 (by omega)]
    simp only [Option.some_bind]
    rw [read_be32C_eq data 8 (by omega)]
    simp only [Option.some_bind]
    rw [byteAtC_eq data 12 (by omega)]
    simp only [Option.some_bind]
    split_ifs with hmagic hwh hch hval hpix hfmt <;>
      first
        | rfl
        | (split <;>
            first
              | rfl
              | (rw [qoiLoopC_eq data (data.length - QOI_END_MARKER_SIZE) (byteAt data 12)
                  (by simp only [QOI_END_MARKER_SIZE]; omega)
                  (read_be32 data 4 * read_be32 data 8) qoi_init_state
                  (by simp only [qoi_init_state, QOI_HEADER_SIZE,
                    QOI_END_MARKER_SIZE]; omega)]
                 cases qoiLoop data (data.length - QOI_END_MARKER_SIZE) (byteAt data 12)
                   (read_be32 data 4 * read_be32 data 8) qoi_init_state <;> rfl))

/-- Counterexample to C3 as stated: `qoiFullW` is a valid QOI file (it
decodes successfully), and its 22-byte truncation `qoiTruncW` — a truncation
of a valid input at an arbitrary byte boundary — also decodes with
`success`, not with `truncated_data` or any other error. -/
theorem qoi_truncation_counterexample :
    (qoi_decode qoiFullW {} {}).1 = decode_result.success ∧
      (qoi_decode qoiTruncW {} {}).1 = decode_result.success := by decide

/-- Splitting the per-pixel loop: running it for `a + b` pixels is running it
for `a` pixels and, if that did not error, for `b` more from the reached
state. -/
theorem qoiLoop_add (data : List Nat) (srcEnd channels : Nat) (a b : Nat) :
    ∀ st : qoi_state, qoiLoop data srcEnd channels (a + b) st =
      match qoiLoop data srcEnd channels a st with
      | .error e => .error e
      | .ok st' => qoiLoop data srcEnd channels b st' := by
  induction a with
  | zero => intro st; simp [qoiLoop]
  | succ a ih =>
    intro st
    have hab : a + 1 + b = (a + b) + 1 := by omega
    rw [hab]
    simp only [qoiLoop]
    split_ifs with h1 h2
    · exact ih _
    · cases qoi_step data srcEnd st with
      | error e => rfl
      | ok st' => exact ih _
    · exact ih _

/-- Once the chunk area is exhausted and no run is pending, each remaining
loop iteration emits a copy of the current pixel and nothing else changes. -/
theorem qoiLoop_fill (data : List Nat) (srcEnd channels : Nat) (n : Nat) :
    ∀ st : qoi_state, st.run = 0 → srcEnd ≤ st.pos →
      qoiLoop data srcEnd channels n st =
        .ok { st with out := st.out ++ (List.replicate n
          (if channels = 4 then [st.px.r, st.px.g, st.px.b, st.px.a]
           else [st.px.r, st.px.g, st.px.b])).flatten } := by
  induction n with
  | zero => intro st _ _; simp [qoiLoop]
  | succ n ih =>
    intro st hrun hpos
    simp only [qoiLoop]
    have h1 : ¬ 0 < st.run := by omega
    have h2 : ¬ st.pos < srcEnd := by omega
    rw [if_neg h1, if_neg h2]
    rw [ih (qoi_emit channels st) (by simpa [qoi_emit] using hrun)
      (by simpa [qoi_emit] using hpos)]
    simp [qoi_emit, List.replicate_succ, List.append_assoc]

/-- C10: on a QOI input whose header is valid and within limits, if running
the per-pixel loop for the first `k` pixels reaches — without an error, i.e.
without ending inside an RGB/RGBA/LUMA chunk — a state whose position has
passed the end of the chunk area (the byte before the 8-byte end marker) with
no pending run, then decode returns success and the full loop pads every one
of the remaining `width*height - k` pixels with the most recently decoded
pixel value. -/
theorem qoi_exhausted_stream_pads
    (data : List Nat) (options : decode_options) (surf : memory_surface)
    (k : Nat) (st : qoi_state)
    (hlen : ¬ data.length < QOI_HEADER_SIZE + QOI_END_MARKER_SIZE)
    (hmagic : read_be32 data 0 = QOI_MAGIC)
    (hwh : ¬ (read_be32 data 4 = 0 ∨ read_be32 data 8 = 0))
    (hch : ¬ (byteAt data 12 ≠ 3 ∧ byteAt data 12 ≠ 4))
    (hval : (validate_dimensions (toInt32 (read_be32 data 4))
      (toInt32 (read_be32 data 8)) options DEFAULT_MAX_DIMENSION).ok = true)
    (hpix : ¬ read_be32 data 4 * read_be32 data 8 > 400000000)
    (hsz : (surf.set_size (toInt32 (read_be32 data 4)) (toInt32 (read_be32 data 8))
      (if byteAt data 12 = 4 then pixel_format.rgba8888 else pixel_format.rgb888)).1
        = true)
    (hk : k ≤ read_be32 data 4 * read_be32 data 8)
    (hloop : qoiLoop data (data.length - QOI_END_MARKER_SIZE) (byteAt data 12) k
      qoi_init_state = .ok st)
    (hpos : data.length - QOI_END_MARKER_SIZE ≤ st.pos)
    (hrun : st.run = 0) :
    (qoi_decode data options surf).1 = decode_result.success ∧
      qoiLoop data (data.length - QOI_END_MARKER_SIZE) (byteAt data 12)
          (read_be32 data 4 * read_be32 data 8) qoi_init_state =
        .ok { st with out := st.out ++
          (List.replicate (read_be32 data 4 * read_be32 data 8 - k)
            (if byteAt data 12 = 4 then [st.px.r, st.px.g, st.px.b, st.px.a]
             else [st.px.r, st.px.g, st.px.b])).flatten } := by
  have h2 : qoiLoop data (data.length - QOI_END_MARKER_SIZE) (byteAt data 12)
      (read_be32 data 4 * read_be32 data 8) qoi_init_state =
      .ok { st with out := st.out ++
        (List.replicate (read_be32 data 4 * read_be32 data 8 - k)
          (if byteAt data 12 = 4 then [st.px.r, st.px.g, st.px.b, st.px.a]
           else [st.px.r, st.px.g, st.px.b])).flatten } := by
    have htot : read_be32 data 4 * read_be32 data 8 =
        k + (read_be32 data 4 * read_be32 data 8 - k) := by omega
    conv_lhs => rw [htot]
    rw [qoiLoop_add, hloop]
    exact qoiLoop_fill data _ _ _ st hrun hpos
  refine ⟨?_, h2⟩
  have hm' : ¬ read_be32 data 0 ≠ QOI_MAGIC := by simp [hmagic]
  have hv' : ¬ ¬ (validate_dimensions (toInt32 (read_be32 data 4))
      (toInt32 (read_be32 data 8)) options DEFAULT_MAX_DIMENSION).ok = true := by
    simp [hval]
  simp only [qoi_decode]
  rw [if_neg hlen, if_neg hm', if_neg hwh, if_neg hch, if_neg hv', if_neg hpix]
  rcases hss : surf.set_size (toInt32 (read_be32 data 4)) (toInt32 (read_be32 data 8))
      (if byteAt data 12 = 4 then pixel_format.rgba8888 else pixel_format.rgb888)
    with ⟨b, s⟩
  rw [hss] at hsz
  simp at hsz
  subst hsz
  rw [h2]

theorem qoi_exhausted_stream_pads_witness :
    (qoi_decode qoiFullW {} {}).1 = decode_result.success ∧
      qoiLoop qoiFullW (qoiFullW.length - QOI_END_MARKER_SIZE) (byteAt qoiFullW 12)
          (read_be32 qoiFullW 4 * read_be32 qoiFullW 8) qoi_init_state =
        .ok { qoiW_st1 with out := qoiW_st1.out ++
          (List.replicate (read_be32 qoiFullW 4 * read_be32 qoiFullW 8 - 1)
            (if byteAt qoiFullW 12 = 4 then
              [qoiW_st1.px.r, qoiW_st1.px.g, qoiW_st1.px.b, qoiW_st1.px.a]
             else [qoiW_st1.px.r, qoiW_st1.px.g, qoiW_st1.px.b])).flatten } :=
  qoi_exhausted_stream_pads qoiFullW {} {} 1 qoiW_st1
    (by decide) (by decide) (by decide) (by decide) (by decide) (by decide)
    (by decide) (by decide) (by rfl) (by decide) (by decide)

theorem write_pixels_meta (s : memory_surface) (x y c : Int) (px : List Nat) :
    (s.write_pixels x y c px).subrects = s.subrects ∧
      (s.write_pixels x y c px).width = s.width ∧
      (s.write_pixels x y c px).height = s.height ∧
      (s.write_pixels x y c px).format = s.format := by
  simp only [memory_surface.write_pixels]
  split_ifs <;> simp

theorem foldl_preserve_meta {α : Type} (F : memory_surface → α → memory_surface)
    (hF : ∀ s a, (F s a).subrects = s.subrects ∧ (F s a).width = s.width ∧
      (F s a).height = s.height ∧ (F s a).format = s.format) :
    ∀ (L : List α) (s : memory_surface),
      (L.foldl F s).subrects = s.subrects ∧ (L.foldl F s).width = s.width ∧
        (L.foldl F s).height = s.height ∧ (L.foldl F s).format = s.format := by
  intro L
  induction L with
  | nil => intro s; exact ⟨rfl, rfl, rfl, rfl⟩
  | cons a L ih =>
    intro s
    obtain ⟨h1, h2, h3, h4⟩ := ih (F s a)
    obtain ⟨g1, g2, g3, g4⟩ := hF s a
    exact ⟨h1.trans g1, h2.trans g2, h3.trans g3, h4.trans g4⟩

theorem set_append_length {α : Type} (l : List α) (d e : α) :
    (l ++ [d]).set l.length e = l ++ [e] := by
  induction l with
  | nil => rfl
  | cons a l ih => simp [ih]

theorem set_subrect_append (s : memory_surface) (i : Nat) (sr : subrect)
    (hlen : s.subrects.length = i) :
    (s.set_subrect (Int.ofNat i) sr).subrects = s.subrects ++ [sr] ∧
      (s.set_subrect (Int.ofNat i) sr).width = s.width ∧
      (s.set_subrect (Int.ofNat i) sr).height = s.height ∧
      (s.set_subrect (Int.ofNat i) sr).format = s.format := by
  simp only [memory_surface.set_subrect]
  rw [if_neg (show ¬ Int.ofNat i < 0 from Int.not_lt.mpr (Int.ofNat_nonneg i))]
  refine ⟨?_, rfl, rfl, rfl⟩
  show ((if s.subrects.length ≤ (Int.ofNat i).toNat then
      s.subrects ++
        List.replicate ((Int.ofNat i).toNat + 1 - s.subrects.length) default_subrect
    else s.subrects).set (Int.ofNat i).toNat sr) = s.subrects ++ [sr]
  rw [if_pos (by rw [hlen]; exact Nat.le.refl :
    s.subrects.length ≤ (Int.ofNat i).toNat)]
  rw [show (Int.ofNat i).toNat = i from rfl]
  rw [show i + 1 - s.subrects.length = 1 from by omega, ← hlen,
    show List.replicate 1 default_subrect = [default_subrect] from rfl]
  exact set_append_length s.subrects default_subrect sr

theorem atlas_dims_eq (maxH : Int) :
    ∀ (icons : List decoded_icon) (w h : Nat),
      h + atlas_sum_heights icons ≤ maxH.toNat →
      atlas_dims maxH icons w h =
        some (icons.foldl (fun w ic => max w ic.width) w, h + atlas_sum_heights icons) := by
  intro icons
  induction icons with
  | nil => intro w h _; simp [atlas_dims, atlas_sum_heights]
  | cons ic rest ih =>
    intro w h hb
    have hsum : atlas_sum_heights (ic :: rest) = ic.height + atlas_sum_heights rest := by
      simp [atlas_sum_heights]
    rw [hsum] at hb ⊢
    simp only [atlas_dims]
    rw [if_neg (by omega : ¬ maxH.toNat < h + ic.height),
      ih (max w ic.width) (h + ic.height) (by omega)]
    rw [show h + ic.height + atlas_sum_heights rest =
      h + (ic.height + atlas_sum_heights rest) from by omega]
    rfl

theorem filterMap_forall2 {α β : Type} (f : α → Option β) :
    ∀ (es : List α) (ics : List β),
      List.Forall₂ (fun e ic => f e = some ic) es ics → es.filterMap f = ics := by
  intro es ics h
  induction h with
  | nil => rfl
  | cons h _ ih => simp [List.filterMap_cons, h, ih]

theorem atlas_copy_spec :
    ∀ (icons : List decoded_icon) (i yOff : Nat) (s : memory_surface),
      s.subrects.length = i →
      (atlas_copy icons i yOff s).subrects = s.subrects ++
          (List.range icons.length).map (fun j =>
            (⟨⟨0, Int.ofNat (yOff + atlas_sum_heights (icons.take j)),
              Int.ofNat ((icons.getD j ⟨0, 0, []⟩).width),
              Int.ofNat ((icons.getD j ⟨0, 0, []⟩).height)⟩, .sprite,
              (i + j) % 2 ^ 32⟩ : subrect)) ∧
        (atlas_copy icons i yOff s).width = s.width ∧
        (atlas_copy icons i yOff s).height = s.height ∧
        (atlas_copy icons i yOff s).format = s.format := by
  intro icons
  induction icons with
  | nil =>
    intro i yOff s _
    simp [atlas_copy]
  | cons ic rest ih =>
    intro i yOff s hlen
    simp only [atlas_copy]
    obtain ⟨hm1, hm2, hm3, hm4⟩ := foldl_preserve_meta
      (fun s y => s.write_pixels 0 (Int.ofNat (yOff + y)) (Int.ofNat (ic.width * 4))
        (ic.pixels.drop (y * ic.width * 4)))
      (fun s y => write_pixels_meta s 0 (Int.ofNat (yOff + y)) (Int.ofNat (ic.width * 4))
        (ic.pixels.drop (y * ic.width * 4)))
      (List.range ic.height) s
    set S1 := (List.range ic.height).foldl
      (fun s y => s.write_pixels 0 (Int.ofNat (yOff + y)) (Int.ofNat (ic.width * 4))
        (ic.pixels.drop (y * ic.width * 4))) s with hS1
    obtain ⟨hs1, hs2, hs3, hs4⟩ := set_subrect_append S1 i
      ⟨⟨0, Int.ofNat yOff, Int.ofNat ic.width, Int.ofNat ic.height⟩, .sprite, i % 2 ^ 32⟩
      (by rw [hm1]; exact hlen)
    obtain ⟨hi1, hi2, hi3, hi4⟩ := ih (i + 1) (yOff + ic.height)
      (S1.set_subrect (Int.ofNat i)
        ⟨⟨0, Int.ofNat yOff, Int.ofNat ic.width, Int.ofNat ic.height⟩, .sprite, i % 2 ^ 32⟩)
      (by rw [hs1, hm1]; simp [hlen])
    refine ⟨?_, hi2.trans (hs2.trans hm2), hi3.trans (hs3.trans hm3),
      hi4.trans (hs4.trans hm4)⟩
    rw [hi1, hs1, hm1]
    simp only [List.length_cons, List.range_succ_eq_map, List.map_cons, List.map_map,
      List.append_assoc, List.singleton_append]
    refine congrArg (fun X => s.subrects ++ X) ?_
    simp only [List.cons.injEq]
    constructor
    · simp [atlas_sum_heights]
    · simp only [List.map_inj_left, List.mem_range, Function.comp]
      intro a ha
      simp only [atlas_sum_heights, List.take_succ_cons, List.getD_cons_succ,
        List.map_cons, List.sum_cons, subrect.mk.injEq, image_rect.mk.injEq]
      refine ⟨⟨trivial, congrArg Int.ofNat (by omega), trivial, trivial⟩, trivial, ?_⟩
      rw [show i + 1 + a = i + a.succ from by omega]

theorem set_size_true_fields (s : memory_surface) (w h : Int) (fmt : pixel_format)
    (s' : memory_surface) (hss : s.set_size w h fmt = (true, s')) :
    s'.width = w ∧ s'.height = h ∧ s'.format = fmt ∧ s'.subrects = [] := by
  simp only [memory_surface.set_size] at hss
  split_ifs at hss <;>
    (injection hss with h1 h2; subst h2;
     first
       | exact ⟨rfl, rfl, rfl, rfl⟩
       | simp at h1)

/-- C8: for an ICO input whose directory entries all decode successfully (and
whose combined atlas fits the effective limits and buffer), decode succeeds
with an atlas surface whose width is the maximum of the sub-image widths,
whose height is the sum of their heights, and which records one SubRect per
sub-image, in file order: SubRect `j` at x = 0, y = the summed heights of
sub-images `0..j-1`, with sub-image `j`'s width and height and user tag `j`. -/
theorem ico_atlas_layout
    (decIcon : List Nat → Int → Int → Option decoded_icon)
    (data : List Nat) (options : decode_options) (surf : memory_surface)
    (r t count : Nat) (es : List ico_dir_entry) (icons : List decoded_icon)
    (hph : parse_ico_header data = some (r, t, count))
    (hcount : count ≠ 0)
    (hes : ico_collect_entries data
      (if options.max_width > 0 then options.max_width else 256)
      (if options.max_height > 0 then options.max_height else 256) count 6 = es)
    (hne : es ≠ [])
    (hicons : List.Forall₂ (fun e ic =>
      (if data.length < e.offset + e.size then none
       else decIcon ((data.drop e.offset).take e.size)
        (if options.max_width > 0 then options.max_width else 256)
        (if options.max_height > 0 then options.max_height else 256)) = some ic) es icons)
    (hH : atlas_sum_heights icons ≤
      (if options.max_height > 0 then options.max_height else 256).toNat)
    (hW : atlas_max_width icons ≤
      (if options.max_width > 0 then options.max_width else 256).toNat)
    (hsz : (surf.set_size (toInt32 (atlas_max_width icons))
      (toInt32 (atlas_sum_heights icons)) pixel_format.rgba8888).1 = true)
    (hn : icons.length < 2 ^ 32) :
    (ico_decode decIcon data options surf).1 = decode_result.success ∧
      (ico_decode decIcon data options surf).2.width = toInt32 (atlas_max_width icons) ∧
      (ico_decode decIcon data options surf).2.height = toInt32 (atlas_sum_heights icons) ∧
      (ico_decode decIcon data options surf).2.format = pixel_format.rgba8888 ∧
      (ico_decode decIcon data options surf).2.subrects =
        (List.range icons.length).map (fun j =>
          (⟨⟨0, Int.ofNat (atlas_sum_heights (icons.take j)),
            Int.ofNat ((icons.getD j ⟨0, 0, []⟩).width),
            Int.ofNat ((icons.getD j ⟨0, 0, []⟩).height)⟩, .sprite, j⟩ : subrect)) := by
  have hlen_eq : es.length = icons.length := List.Forall₂.length_eq hicons
  have hine : icons ≠ [] := by
    intro h
    apply hne
    subst h
    exact List.length_eq_zero.mp (by simpa using hlen_eq)
  have hfm : es.filterMap (fun e =>
      if data.length < e.offset + e.size then none
      else decIcon ((data.drop e.offset).take e.size)
        (if options.max_width > 0 then options.max_width else 256)
        (if options.max_height > 0 then options.max_height else 256)) = icons :=
    filterMap_forall2 _ es icons hicons
  simp only [ico_decode, hph]
  rw [if_neg hcount, hes, if_neg hne, hfm]
  simp only [create_icon_atlas]
  rw [if_neg hine]
  simp only [show atlas_dims (if options.max_height > 0 then options.max_height else 256)
      icons 0 0 = some (atlas_max_width icons, atlas_sum_heights icons) from by
    have := atlas_dims_eq (if options.max_height > 0 then options.max_height else 256)
      icons 0 0 (by omega)
    simpa [atlas_max_width] using this]
  rw [if_neg (by omega : ¬ (if options.max_width > 0 then
    options.max_width else 256).toNat < atlas_max_width icons)]
  rcases hss : surf.set_size (toInt32 (atlas_max_width icons))
      (toInt32 (atlas_sum_heights icons)) pixel_format.rgba8888 with ⟨b, s'⟩
  rw [hss] at hsz
  simp at hsz
  subst hsz
  obtain ⟨hf1, hf2, hf3, hf4⟩ := set_size_true_fields surf
    (toInt32 (atlas_max_width icons)) (toInt32 (atlas_sum_heights icons))
    pixel_format.rgba8888 s' hss
  obtain ⟨hc1, hc2, hc3, hc4⟩ := atlas_copy_spec icons 0 0 s' (by rw [hf4]; rfl)
  refine ⟨rfl, ?_, ?_, ?_, ?_⟩
  · show (atlas_copy icons 0 0 s').width = _
    rw [hc2, hf1]
  · show (atlas_copy icons 0 0 s').height = _
    rw [hc3, hf2]
  · show (atlas_copy icons 0 0 s').format = _
    rw [hc4, hf3]
  · show (atlas_copy icons 0 0 s').subrects = _
    rw [hc1, hf4]
    simp only [List.nil_append]
    apply List.map_congr_left
    intro j hj
    have hjn : j < icons.length := List.mem_range.mp hj
    have hmod : j % 2 ^ 32 = j := Nat.mod_eq_of_lt (Nat.lt_trans hjn hn)
    simp [hmod]
    exact Nat.lt_trans hjn (by norm_num at hn; exact hn)

theorem ico_atlas_layout_witness :
    (ico_decode icoW_dec icoW_data {} {}).1 = decode_result.success ∧
      (ico_decode icoW_dec icoW_data {} {}).2.width =
        toInt32 (atlas_max_width icoW_icons) ∧
      (ico_decode icoW_dec icoW_data {} {}).2.height =
        toInt32 (atlas_sum_heights icoW_icons) ∧
      (ico_decode icoW_dec icoW_data {} {}).2.format = pixel_format.rgba8888 ∧
      (ico_decode icoW_dec icoW_data {} {}).2.subrects =
        (List.range icoW_icons.length).map (fun j =>
          (⟨⟨0, Int.ofNat (atlas_sum_heights (icoW_icons.take j)),
            Int.ofNat ((icoW_icons.getD j ⟨0, 0, []⟩).width),
            Int.ofNat ((icoW_icons.getD j ⟨0, 0, []⟩).height)⟩, .sprite, j⟩ : subrect)) :=
  ico_atlas_layout icoW_dec icoW_data {} {} 0 1 2 icoW_es icoW_icons
    (by decide) (by decide) (by decide) (by decide)
    (List.Forall₂.cons (by decide) (List.Forall₂.cons (by decide) List.Forall₂.nil))
    (by decide) (by decide) (by decide) (by decide)

end OnyxImage
